import Mathlib

/-!
Verification of the hm-aurorah-api streaming layer.

This file shallowly embeds the parts of the repository exercised by the
streaming claims:

* `app/services/langgraph_client.py` — `LangGraphClientSDK.parse_chunk`
* `app/api/v1/endpoints/chatbot_message_c_action.py` — the chatbot orchestrator
* `app/api/v1/endpoints/chatbot.py` — `create_chatbot_message` entry checks
* `app/api/v1/endpoints/file_translation_task.py` — the translation orchestrator
* `app/core/rsmqueue.py` — the Redis-Streams message queue and `sse_event`
* `app/api/v1/endpoints/message_queue.py` — SSE subscription framing
* `app/services/langgraph_chunk_processor.py` — `TranslationChunkCollector`
* `app/utils/utils_text.py` — `analyze_raw_text_to_json`

Python dict/list payloads are embedded as a `Json` inductive; the dynamic
attribute/subscript operations the source performs on them are embedded as
`Except PyError` computations so that the exceptions the source can raise
(`KeyError`, `IndexError`, `TypeError`, `AttributeError`, `ValueError`)
are observable values.
-/

mutual

/-- A JSON-like Python value: `None`, `bool`, `int`, `str`, `list`, `dict`
(dicts keep insertion order, as Python dicts do).  Lists and dicts are
mutual inductives (`JsonList`, `JsonPairs`) so that equality is decidable.
Floats do not occur in any payload the claims exercise and are left out of
the embedding. -/
inductive Json where
  | null : Json
  | bool (b : Bool) : Json
  | int (n : Int) : Json
  | str (s : String) : Json
  | arr (elems : JsonList) : Json
  | obj (pairs : JsonPairs) : Json
  deriving DecidableEq, Repr

/-- Spine of a JSON array. -/
inductive JsonList where
  | nil : JsonList
  | cons (head : Json) (tail : JsonList) : JsonList
  deriving DecidableEq, Repr

/-- Spine of a JSON object; insertion-ordered `(key, value)` bindings. -/
inductive JsonPairs where
  | nil : JsonPairs
  | cons (key : String) (val : Json) (tail : JsonPairs) : JsonPairs
  deriving DecidableEq, Repr

end

/-- The elements of an array spine as a `List`. -/
def JsonList.toList : JsonList → List Json
  | .nil => []
  | .cons h t => h :: t.toList

/-- An array spine from a `List`. -/
def JsonList.ofList : List Json → JsonList
  | [] => .nil
  | h :: t => .cons h (JsonList.ofList t)

/-- The bindings of an object spine as a `List`. -/
def JsonPairs.toList : JsonPairs → List (String × Json)
  | .nil => []
  | .cons k v t => (k, v) :: t.toList

/-- An object spine from a `List` of bindings. -/
def JsonPairs.ofList : List (String × Json) → JsonPairs
  | [] => .nil
  | (k, v) :: t => .cons k v (JsonPairs.ofList t)

namespace Json

/-- Array from a `List` of elements. -/
def mkArr (l : List Json) : Json := .arr (JsonList.ofList l)

/-- Object from a `List` of bindings. -/
def mkObj (l : List (String × Json)) : Json := .obj (JsonPairs.ofList l)

/-- Python truthiness: `None`, `False`, `0`, `""`, `[]`, `{}` are falsy. -/
def truthy : Json → Bool
  | .null => false
  | .bool b => b
  | .int n => n != 0
  | .str s => s ≠ ""
  | .arr .nil => false
  | .arr (.cons _ _) => true
  | .obj .nil => false
  | .obj (.cons _ _ _) => true

/-- `isinstance(x, dict)` -/
def isDict : Json → Bool
  | .obj _ => true
  | _ => false

/-- `isinstance(x, list)` -/
def isList : Json → Bool
  | .arr _ => true
  | _ => false

/-- `isinstance(x, str)` -/
def isStr : Json → Bool
  | .str _ => true
  | _ => false

/-- First binding of a key in an ordered dict. -/
def lookup (k : String) : Json → Option Json
  | .obj ps => ps.toList.lookup k
  | _ => none

/-- `k in d` for a dict value. -/
def hasKey (k : String) (j : Json) : Bool :=
  (j.lookup k).isSome

/-- Value of a key in a dict, with a default (total; only used where the
source has already established the key is present or supplies a default). -/
def getD (j : Json) (k : String) (d : Json) : Json :=
  match j.lookup k with
  | some v => v
  | none => d

end Json

/-- The Python exceptions the embedded code can raise. -/
inductive PyError where
  | keyError (key : String)
  | indexError (msg : String)
  | typeError (msg : String)
  | attributeError (msg : String)
  | valueError (msg : String)
  deriving DecidableEq, Repr

namespace PyError

/-- `type(e).__name__`, as used by the translation orchestrator to build the
`"System error (<ErrorKind>). Check the server logs for details."` string. -/
def typeName : PyError → String
  | .keyError _ => "KeyError"
  | .indexError _ => "IndexError"
  | .typeError _ => "TypeError"
  | .attributeError _ => "AttributeError"
  | .valueError _ => "ValueError"

/-- `str(e)`; only the `ValueError` case is ever stored by the source. -/
def toMessage : PyError → String
  | .keyError k => k
  | .indexError m => m
  | .typeError m => m
  | .attributeError m => m
  | .valueError m => m

/-- `isinstance(e, ValueError)`, the discrimination done by the translation
orchestrator's first `except ValueError` clause. -/
def isValueError : PyError → Bool
  | .valueError _ => true
  | _ => false

end PyError

/-- `len(x)`: defined on `str` / `list` / `dict`, `TypeError` otherwise. -/
def pyLen : Json → Except PyError Nat
  | .str s => .ok s.length
  | .arr es => .ok es.toList.length
  | .obj ps => .ok ps.toList.length
  | _ => .error (.typeError "object has no len()")

/-- `x[k]` for a string key `k`: `KeyError` on a missing dict key,
`TypeError` on non-dict containers and scalars. -/
def pyGetStrKey (j : Json) (k : String) : Except PyError Json :=
  match j with
  | .obj ps =>
    match ps.toList.lookup k with
    | some v => .ok v
    | none => .error (.keyError k)
  | .arr _ => .error (.typeError "list indices must be integers")
  | .str _ => .error (.typeError "string indices must be integers")
  | _ => .error (.typeError "object is not subscriptable")

/-- `x[0]`: head of a list (`IndexError` when empty), first character of a
string (`IndexError` when empty), `KeyError` on a dict (the embedded dicts
have string keys only, so the integer key `0` is never present),
`TypeError` on scalars. -/
def pyGetIdx0 : Json → Except PyError Json
  | .arr .nil => .error (.indexError "list index out of range")
  | .arr (.cons e _) => .ok e
  | .str s =>
    match s.data with
    | [] => .error (.indexError "string index out of range")
    | c :: _ => .ok (.str (String.mk [c]))
  | .obj _ => .error (.keyError "0")
  | _ => .error (.typeError "object is not subscriptable")

/-- `x[-1]`: last element of a list (`IndexError` when empty), last
character of a string (`IndexError` when empty), `KeyError` on a dict (the
embedded dicts have string keys only, so the integer key `-1` is never
present), `TypeError` on scalars. -/
def pyGetLast : Json → Except PyError Json
  | .arr es =>
    match es.toList.getLast? with
    | some e => .ok e
    | none => .error (.indexError "list index out of range")
  | .str s =>
    match s.data.getLast? with
    | some c => .ok (.str (String.mk [c]))
    | none => .error (.indexError "string index out of range")
  | .obj _ => .error (.keyError "-1")
  | _ => .error (.typeError "object is not subscriptable")

/-- Substring test on character lists (`k in s` for Python strings). -/
def charSubstring (p l : List Char) : Bool :=
  (List.range (l.length + 1)).any fun i => (l.drop i).take p.length = p

/-- `k in x` for a string `k`: key test on dicts, membership on lists,
substring test on strings, `TypeError` on scalars. -/
def pyContains (k : String) (j : Json) : Except PyError Bool :=
  match j with
  | .obj ps => .ok (ps.toList.lookup k).isSome
  | .arr es => .ok (es.toList.contains (.str k))
  | .str s => .ok (charSubstring k.data s.data)
  | _ => .error (.typeError "argument is not iterable")

/-- `x.get(k, default)`: only dicts have `.get`; everything else (including
`None`) raises `AttributeError`. -/
def pyDictGet (j : Json) (k : String) (d : Json) : Except PyError Json :=
  match j with
  | .obj _ => .ok (j.getD k d)
  | _ => .error (.attributeError "object has no attribute get")

/-- Elements produced by `for x in j`: list elements, one-character strings
for a string, the keys for a dict; `TypeError` on scalars. -/
def pyIterElems : Json → Except PyError (List Json)
  | .arr es => .ok es.toList
  | .str s => .ok (s.data.map fun c => .str (String.mk [c]))
  | .obj ps => .ok (ps.toList.map fun p => .str p.1)
  | _ => .error (.typeError "object is not iterable")

/-- One raw chunk of the agent stream (`langgraph_sdk.schema.StreamPart`). -/
structure StreamPart where
  event : String
  data : Json
  deriving DecidableEq, Repr

/-- The normalized chunk variants produced by
`LangGraphClientSDK.parse_chunk` (`ParsedChunk_*` TypedDicts in the
source).  Python `None` is embedded as `Json.null`. -/
inductive ParsedChunk where
  | metadata (run_id : Json)
  | values (messages : Json) (is_interrupted : Bool) (interrupt_msg : Json)
  | tasks (task_id task_name task_error task_triggers : Json)
      (is_node_started is_node_completed is_interrupted : Bool)
      (interrupt_msg : Json)
  | updates (node_name : String) (node_output : Json)
      (is_interrupted : Bool) (interrupt_msg : Json)
  | events (event_name : String) (is_ai_message is_tool_call : Bool)
      (event_data : Json) (chunk_data : Option Json)
  deriving DecidableEq, Repr

namespace ParsedChunk

/-- The `event` discriminator string of a parsed chunk
(`parsed_chunk["event"]` in the source). -/
def event : ParsedChunk → String
  | .metadata _ => "metadata"
  | .values _ _ _ => "values"
  | .tasks _ _ _ _ _ _ _ _ => "tasks"
  | .updates _ _ _ _ => "updates"
  | .events _ _ _ _ _ => "events"

/-- `parsed_chunk["is_interrupted"]` (false on variants without the field). -/
def is_interrupted : ParsedChunk → Bool
  | .values _ i _ => i
  | .tasks _ _ _ _ _ _ i _ => i
  | .updates _ _ i _ => i
  | _ => false

/-- `parsed_chunk["interrupt_msg"]` (`None` on variants without the field). -/
def interrupt_msg : ParsedChunk → Json
  | .values _ _ m => m
  | .tasks _ _ _ _ _ _ _ m => m
  | .updates _ _ _ m => m
  | _ => .null

end ParsedChunk

namespace LangGraphClientSDK

/-- The `interrupts[0].get("value", {}).get("msg", None)` extraction shared
by the `tasks` and `updates` arms of `parse_chunk`. -/
def interruptMsgOfList (interrupts : Json) : Except PyError Json := do
  let first ← pyGetIdx0 interrupts
  let v ← pyDictGet first "value" (Json.mkObj [])
  pyDictGet v "msg" .null

/-- The tool-call tail of the `on_chat_model_stream` arm: both `for` loops
over `chunk_data.get("tool_call_chunks", [])`, which call `.get("args")`
on every element and return the first truthy `args`. -/
def eventsToolCallPath (dataField cd : Json) : Except PyError (Option ParsedChunk) := do
  let tccs ← pyDictGet cd "tool_call_chunks" (Json.mkArr [])
  let elems ← pyIterElems tccs
  let argsList ← elems.mapM fun e => pyDictGet e "args" .null
  match argsList.find? (fun a => a.truthy) with
  | some args => return some (.events "on_chat_model_stream" false true dataField (some args))
  | none => return none  -- loop exhausted: falls off the end of the function

/-- `LangGraphClientSDK.parse_chunk` (app/services/langgraph_client.py).
Returns `some` parsed variant, `none` where the source returns `None`
(explicitly or by falling off the end), and `.error` where the source
raises.  Branches follow the source order; a branch of the source that
falls through to later `if chunk.event == ...` tests that cannot match the
current event simply produces `none` here. -/
def parse_chunk (chunk : StreamPart) : Except PyError (Option ParsedChunk) := do
  -- `metadata` with a dict payload carrying "run_id"
  if chunk.event = "metadata" && chunk.data.isDict && chunk.data.hasKey "run_id" then
    return some (.metadata (chunk.data.getD "run_id" .null))
  else if chunk.event = "values" && chunk.data.isDict && chunk.data.hasKey "__interrupt__" then
    -- HITL interrupt carried in a full-state snapshot
    let interrupt_data := chunk.data.getD "__interrupt__" .null
    let n ← pyLen interrupt_data
    if n > 0 then
      let first ← pyGetIdx0 interrupt_data
      let hasValue ← pyContains "value" first
      if hasValue then
        let v ← pyGetStrKey first "value"
        let hasMsg ← pyContains "msg" v
        if hasMsg then
          let msg ← pyGetStrKey v "msg"
          return some (.values (Json.mkArr []) true msg)
        else
          return none  -- "Invalid interrupt data" log, return None
      else
        return none
    else
      return none
  else if chunk.event = "values" then
    -- plain snapshot: `data.get("messages", [])` (raises on non-dict data)
    let messages ← pyDictGet chunk.data "messages" (Json.mkArr [])
    if messages.truthy then
      -- the debug log eagerly evaluates `pformat(messages[-1])`, which
      -- raises on truthy non-sequence values (line 420)
      let _last ← pyGetLast messages
      return some (.values messages false .null)
    else
      -- falls through; no later `chunk.event` test matches "values"
      return none
  else if chunk.event = "tasks" then
    let hasInput ← pyContains "input" chunk.data
    let startedCond ←
      if hasInput then do
        let hasResult ← pyContains "result" chunk.data
        pure (!hasResult)
      else
        pure false
    if startedCond then
      -- node TRIGGERED; the log lines subscript name/id/triggers eagerly
      let nm ← pyGetStrKey chunk.data "name"
      let tid ← pyGetStrKey chunk.data "id"
      let trig ← pyGetStrKey chunk.data "triggers"
      return some (.tasks tid nm .null trig true false false .null)
    else
      let hasResult ← pyContains "result" chunk.data
      if hasResult then
        -- node COMPLETED; log lines subscript name/id/error/interrupts
        let nm ← pyGetStrKey chunk.data "name"
        let tid ← pyGetStrKey chunk.data "id"
        let _err ← pyGetStrKey chunk.data "error"
        let _ints ← pyGetStrKey chunk.data "interrupts"
        let interrupts ← pyDictGet chunk.data "interrupts" (Json.mkArr [])
        let n ← pyLen interrupts
        let isInt := decide (n > 0)
        let msg ← if isInt then interruptMsgOfList interrupts else pure Json.null
        let errD ← pyDictGet chunk.data "error" .null
        return some (.tasks tid nm errD .null false true isInt msg)
      else
        -- neither "input" nor "result": falls through, later tests miss
        return none
  else if chunk.event = "updates" then
    match chunk.data with
    | .obj pairs =>
      -- `update_data.items()`; the first loop only logs, the second loop
      -- returns inside its first iteration whichever branch is taken
      match pairs with
      | .nil => return none  -- empty dict: both loops skip, later tests miss
      | .cons node_name node_outputs _ =>
        if node_outputs.isList then
          let first ← pyGetIdx0 node_outputs  -- IndexError on an empty list
          if first.isDict then
            let ints ← pyDictGet first "__interrupt__" (Json.mkArr [])
            let n ← pyLen ints
            let isInt := decide (n > 0)
            let msg ← if isInt then interruptMsgOfList ints else pure Json.null
            return some (.updates node_name first isInt msg)
          else
            return none  -- "Invalid node output" log, return None
        else if node_outputs.isDict then
          return some (.updates node_name node_outputs false .null)
        else
          return none
    | _ => throw (.attributeError "object has no attribute items")
  else if chunk.event = "events" then
    let ev ← pyDictGet chunk.data "event" .null
    if ev = .str "on_chat_model_start" then
      return some (.events "on_chat_model_start" false false chunk.data none)
    else if ev = .str "on_chat_model_end" then
      return some (.events "on_chat_model_end" false false chunk.data none)
    else if ev = .str "on_chat_model_stream" then
      let dataField ← pyDictGet chunk.data "data" .null
      let cd ← pyDictGet dataField "chunk" (Json.mkObj [])
      let content ← pyDictGet cd "content" .null
      if content.truthy && content.isStr then
        let ty ← pyDictGet cd "type" .null
        if ty = .str "AIMessageChunk" then
          return some (.events "on_chat_model_stream" true false dataField (some content))
        else
          eventsToolCallPath dataField cd
      else
        eventsToolCallPath dataField cd
    else
      return none  -- other event names: falls off the end of the function
  else
    return none  -- unknown event kinds are dropped

end LangGraphClientSDK

/-! ## Chatbot orchestrator
(`app/api/v1/endpoints/chatbot_message_c_action.py`) -/

namespace AssistantID

/-- `AssistantID.TASK_ASSISTANT` -/
def TASK_ASSISTANT : String := "task_assistant"

/-- `AssistantID.TASK_TRANSLATION` -/
def TASK_TRANSLATION : String := "task_translation"

end AssistantID

namespace ChatbotTaskStatus

/-- `ChatbotTaskStatus.READY` -/
def READY : String := "ready"

/-- `ChatbotTaskStatus.IN_PROGRESS` -/
def IN_PROGRESS : String := "in_progress"

/-- `ChatbotTaskStatus.HITL` -/
def HITL : String := "hitl"

/-- `ChatbotTaskStatus.COMPLETED` -/
def COMPLETED : String := "completed"

/-- `ChatbotTaskStatus.FAILED` -/
def FAILED : String := "failed"

/-- `ChatbotTaskStatus.CANCELLED` -/
def CANCELLED : String := "cancelled"

/-- `ChatbotTaskStatus.ABANDONED` -/
def ABANDONED : String := "abandoned"

end ChatbotTaskStatus

namespace ChatbotMessageStatus

/-- `ChatbotMessageStatus.PENDING` -/
def PENDING : String := "pending"

/-- `ChatbotMessageStatus.PROCESSING` -/
def PROCESSING : String := "processing"

/-- `ChatbotMessageStatus.HITL` -/
def HITL : String := "hitl"

/-- `ChatbotMessageStatus.COMPLETED` -/
def COMPLETED : String := "completed"

/-- `ChatbotMessageStatus.FAILED` -/
def FAILED : String := "failed"

end ChatbotMessageStatus

/-- One attachment of a chatbot message (`ChatbotMessageFile`): only the
fields the orchestrator reads. -/
structure ChatbotFile where
  extension : String
  url : String
  deriving DecidableEq, Repr

/-- An observable side effect of the chatbot orchestrator, in program
order.  The `db*` constructors record exactly the columns the
corresponding `UPDATE ... .values(...)` statement writes (besides
`updated_at`); in particular `dbMessageStatus` carries the error string
stored alongside the status, which the chatbot path never supplies. -/
inductive OrcAction where
  | dbMessageThread (thread_id : String)
  | dbTaskRunId (run_id : Json)
  | dbMessageStatus (status : String) (stored_message : Option String)
  | dbTaskStatus (status : String)
  | mqSend (channel_id : String) (data : Json)
  deriving DecidableEq, Repr

/-- `RedisStreamMessageQueue.broadcast(channel_id, event_type, payload)`:
a `send` of `{type: event_type, payload: payload}`. -/
def mqBroadcast (channel_id event_type : String) (payload : Json) : OrcAction :=
  .mqSend channel_id (Json.mkObj [("type", .str event_type), ("payload", payload)])

/-- Whether a queue entry appended by an action has top-level
`type == "done"`. -/
def OrcAction.isDoneSend : OrcAction → Bool
  | .mqSend _ d => d.getD "type" .null = Json.str "done"
  | _ => false

/-- Local loop state of the orchestrator's chunk loop. -/
structure ChatbotLoopState where
  is_interrupted : Bool
  last_message_type : String
  deriving DecidableEq, Repr

/-- Initial loop state (`is_interrupted = False`,
`last_message_type = "unknown"`). -/
def ChatbotLoopState.init : ChatbotLoopState := ⟨false, "unknown"⟩

/-- The loop body's effects once the chunk is parsed: broadcast
metadata/tasks/updates chunks, handle events chunks, persist `last_run_id`
from metadata, and detect a `tasks` interrupt. -/
def chatbotStepPure (message_id : String) (st : ChatbotLoopState) (chunk : StreamPart)
    (parsed : Option ParsedChunk) : ChatbotLoopState × List OrcAction :=
  match parsed with
  | none => (st, [])
  | some pc =>
    -- branch on parsed_chunk["event"]
    let (st1, acts1) :=
      if pc.event = "metadata" || pc.event = "tasks" || pc.event = "updates" then
        (st, [mqBroadcast message_id "langgraph_stream_chunk"
          (Json.mkObj [("type", .str chunk.event), ("data", chunk.data)])])
      else if pc.event = "events" then
        match pc with
        | .events event_name is_ai is_tool _ chunk_data =>
          if event_name = "on_chat_model_start" then
            (st, [])
          else if event_name = "on_chat_model_stream" then
            let lt := if is_ai then "ai" else if is_tool then "tool" else "unknown"
            ({ st with last_message_type := lt },
              [mqBroadcast message_id "model_stream_chunk"
                (Json.mkObj [("type", .str lt),
                  ("message", chunk_data.getD .null),
                  ("status", .str ChatbotMessageStatus.PROCESSING)])])
          else if event_name = "on_chat_model_end" then
            (st, [mqBroadcast message_id "model_stream_chunk"
              (Json.mkObj [("type", .str st.last_message_type),
                ("message", .str ""),
                ("status", .str ChatbotMessageStatus.COMPLETED)])])
          else (st, [])
        | _ => (st, [])
      else (st, [])
    -- `if parsed_chunk["event"] == "metadata" and parsed_chunk["run_id"]`
    let acts2 :=
      match pc with
      | .metadata run_id => if run_id.truthy then [OrcAction.dbTaskRunId run_id] else []
      | _ => []
    -- `if parsed_chunk["event"] == "tasks" and parsed_chunk["is_interrupted"]`
    let (st3, acts3) :=
      if pc.event = "tasks" && pc.is_interrupted then
        let interrupt_msg : Json :=
          if pc.interrupt_msg.truthy then pc.interrupt_msg else .str ""
        ({ st1 with is_interrupted := true },
          [mqBroadcast message_id "ai_message"
            (Json.mkObj [("type", .str "ai"),
              ("message", interrupt_msg),
              ("status", .str ChatbotMessageStatus.HITL),
              ("message_id", .str message_id)])])
      else (st1, [])
    (st3, acts1 ++ acts2 ++ acts3)

/-- The body of `async for chunk in async_generator` in
`atask_for_create_chatbot_message`: parse the chunk, then apply its
effects; an exception is raised by `parse_chunk` before any side effect
of the iteration. -/
def chatbotStep (message_id : String) (st : ChatbotLoopState) (chunk : StreamPart) :
    Except PyError (ChatbotLoopState × List OrcAction) :=
  (LangGraphClientSDK.parse_chunk chunk).map (chatbotStepPure message_id st chunk)

/-- The orchestrator's chunk loop over the whole agent stream; an
exception aborts the loop, keeping the side effects already performed. -/
def runChatbotLoop (message_id : String) :
    ChatbotLoopState → List StreamPart → ChatbotLoopState × List OrcAction × Option PyError
  | st, [] => (st, [], none)
  | st, c :: rest =>
    match chatbotStep message_id st c with
    | .error e => (st, [], some e)
    | .ok (st', acts) =>
      let (st'', acts', err) := runChatbotLoop message_id st' rest
      (st'', acts ++ acts', err)

/-- `for file in chatbot_message_data.files` of
`atask_for_create_chatbot_message`: skip non-`txt` attachments, fetch
`txt` attachments (`fetch url = none` models an HTTP failure, which is
logged and skipped), and on success REPLACE the prompt with
`f"\n\n{file_content}"` — as the source line `prompt = f"\n\n{file_content}"`
does, despite its `# Add the file content to the prompt` comment. -/
def processFiles (prompt : String) (files : List ChatbotFile)
    (fetch : String → Option String) : String :=
  files.foldl
    (fun p file =>
      if file.extension ≠ "txt" then p
      else
        match fetch file.url with
        | none => p
        | some file_content => "\n\n" ++ file_content)
    prompt

/-- Inputs of one chatbot orchestrator run.  External collaborators
(thread creation, HTTP fetches, the agent stream) are supplied as values:
`new_thread_id` is the result `create_thread()` would return, `fetch` the
attachment HTTP client, `stream` the raw chunk sequence the agent yields. -/
structure ChatbotRunInput where
  task_thread_id : String
  message_id : String
  message_thread_id : String
  content : String
  files : List ChatbotFile
  assistant_id : String
  hitl_mode : Bool
  new_thread_id : String
  fetch : String → Option String
  stream : List StreamPart

/-- Outcome of one chatbot orchestrator run. -/
structure ChatbotRunResult where
  trace : List OrcAction
  prompt_sent : String
  is_interrupted : Bool
  raised : Option PyError

/-- `atask_for_create_chatbot_message`
(app/api/v1/endpoints/chatbot_message_c_action.py): thread selection,
message `thread_id` persistence, attachment ingestion, the chunk loop,
terminal resolution, and the `except Exception` handler that persists
`FAILED` on both records (storing no error string). -/
def atask_for_create_chatbot_message (inp : ChatbotRunInput) : ChatbotRunResult :=
  let thread_id : String :=
    if inp.assistant_id = AssistantID.TASK_ASSISTANT then inp.task_thread_id
    else if inp.hitl_mode then inp.message_thread_id
    else inp.new_thread_id
  let pre : List OrcAction := [.dbMessageThread thread_id]
  let prompt := processFiles inp.content inp.files inp.fetch
  let (st, loopActs, err) := runChatbotLoop inp.message_id .init inp.stream
  match err with
  | some e =>
    { trace := pre ++ loopActs ++
        [.dbMessageStatus ChatbotMessageStatus.FAILED none,
         .dbTaskStatus ChatbotTaskStatus.FAILED],
      prompt_sent := prompt, is_interrupted := st.is_interrupted, raised := some e }
  | none =>
    if st.is_interrupted then
      { trace := pre ++ loopActs ++
          [.dbMessageStatus ChatbotMessageStatus.HITL none,
           .dbTaskStatus ChatbotTaskStatus.HITL],
        prompt_sent := prompt, is_interrupted := true, raised := none }
    else
      { trace := pre ++ loopActs ++
          [.dbMessageStatus ChatbotMessageStatus.COMPLETED none,
           .dbTaskStatus ChatbotTaskStatus.COMPLETED,
           .mqSend inp.message_id (Json.mkObj [("type", .str "done")])],
        prompt_sent := prompt, is_interrupted := false, raised := none }

/-! ## Chatbot message creation endpoint
(`app/api/v1/endpoints/chatbot.py`, `create_chatbot_message`) -/

/-- The persistent record of a chatbot task, as far as the endpoint reads
and writes it. -/
structure ChatbotTaskRec where
  status : String
  deriving DecidableEq, Repr

/-- The persistent record of a chatbot message, as far as the endpoint
reads and writes it. -/
structure ChatbotMessageRec where
  status : String
  deriving DecidableEq, Repr

/-- An `HTTPException(status_code, detail)` raised by the endpoint. -/
structure HttpException where
  status_code : Nat
  detail : String
  deriving DecidableEq, Repr

/-- Successful endpoint outcome: the committed records and the fact that
the orchestrator was scheduled (via `background_tasks.add_task`, which
runs only after the response, i.e. after the commits). -/
structure CreateMessageOk where
  task : ChatbotTaskRec
  message : ChatbotMessageRec
  hitl_mode : Bool
  background_scheduled : Bool
  deriving DecidableEq, Repr

/-- Inputs of `create_chatbot_message`: the request body flags and the
results of the three database lookups the endpoint performs. -/
structure CreateMessageInput where
  user_exists : Bool
  task : Option ChatbotTaskRec
  hitl_mode : Bool
  hitl_message_id : Option String
  hitl_message : Option ChatbotMessageRec

/-- `create_chatbot_message` (app/api/v1/endpoints/chatbot.py): ownership
and state validation, record creation/update, and background scheduling.
A raised `HTTPException` is rolled back, leaving the records unchanged,
which the `.error` outcome models (nothing was committed). -/
def create_chatbot_message (inp : CreateMessageInput) :
    Except HttpException CreateMessageOk :=
  if !inp.user_exists then
    .error ⟨404, "User not found"⟩
  else
    match inp.task with
    | none => .error ⟨404, "Chatbot task not found"⟩
    | some task =>
      if task.status = ChatbotTaskStatus.IN_PROGRESS then
        .error ⟨400, "Chatbot task is already running an action"⟩
      else if !([ChatbotTaskStatus.READY, ChatbotTaskStatus.HITL,
          ChatbotTaskStatus.COMPLETED, ChatbotTaskStatus.FAILED,
          ChatbotTaskStatus.CANCELLED, ChatbotTaskStatus.ABANDONED].contains task.status) then
        .error ⟨400, "Chatbot task is not in a valid state"⟩
      else if !inp.hitl_mode then
        -- new message: status PROCESSING, task IN_PROGRESS, commit, schedule
        .ok { task := { status := ChatbotTaskStatus.IN_PROGRESS },
              message := { status := ChatbotMessageStatus.PROCESSING },
              hitl_mode := false, background_scheduled := true }
      else
        match inp.hitl_message_id with
        | none => .error ⟨400, "hitl_message_id is required in HITL mode"⟩
        | some _ =>
          match inp.hitl_message with
          | none => .error ⟨404, "Chatbot message not found"⟩
          | some msg =>
            if msg.status ≠ ChatbotMessageStatus.HITL then
              .error ⟨400, "Chatbot message is not in HITL status"⟩
            else
              .ok { task := { status := ChatbotTaskStatus.IN_PROGRESS },
                    message := { status := ChatbotMessageStatus.PROCESSING },
                    hitl_mode := true, background_scheduled := true }

/-! ## Redis Streams message queue (`app/core/rsmqueue.py`)

The model covers the Redis commands the queue issues (`XADD`,
`XGROUP CREATE`, `XREADGROUP` with `">"` and `"0"`, `XACK`) for one
channel and one consumer group holding one consumer — the configuration
every SSE subscription uses (`consumer_group=f"mq-consumer-{consumer_id}"`
with a single consumer).  Entry ids are modelled as the naturals
`1, 2, 3, …` in append order, standing for the strictly increasing
`"<millis>-<seq>"` ids Redis assigns. -/

/-- One Redis stream: the append-only entry log and the next id `XADD`
will assign. -/
structure RStream where
  entries : List (Nat × Json)
  nextId : Nat
  deriving DecidableEq, Repr

/-- A stream that does not exist yet (created by `MKSTREAM` / first `XADD`). -/
def RStream.empty : RStream := ⟨[], 1⟩

/-- `XADD <stream> * data <json>`: append with the next id.  (`MAXLEN ~`
trimming and `EXPIRE` do not affect delivery order and are outside the
model.) -/
def RStream.xadd (s : RStream) (d : Json) : RStream × Nat :=
  (⟨s.entries ++ [(s.nextId, d)], s.nextId + 1⟩, s.nextId)

/-- The consumer-group state for the (single) consumer: the group's
last-delivered id and the consumer's pending entry list. -/
structure RGroup where
  lastDelivered : Nat
  pel : List Nat
  deriving DecidableEq, Repr

/-- `XGROUP CREATE <stream> <group> <id> MKSTREAM` as `ensure_group` issues
it: start id `"0"` for `stream_from_beginning`, `"$"` (= everything already
in the stream is considered delivered) for `stream_from_new_only`. -/
def RGroup.create (s : RStream) (from_beginning : Bool) : RGroup :=
  { lastDelivered := if from_beginning then 0 else s.nextId - 1, pel := [] }

/-- `XREADGROUP GROUP <g> <c> COUNT <count> STREAMS <stream> >`: up to
`count` entries with id above the group's last-delivered id, which advance
the last-delivered id and enter the consumer's pending list. -/
def RGroup.readNew (g : RGroup) (s : RStream) (count : Nat) :
    RGroup × List (Nat × Json) :=
  let avail := (s.entries.filter fun e => g.lastDelivered < e.1).take count
  ({ lastDelivered := avail.foldl (fun m e => max m e.1) g.lastDelivered,
     pel := g.pel ++ avail.map Prod.fst },
   avail)

/-- `XREADGROUP ... STREAMS <stream> 0`: the consumer's pending (delivered
but unacknowledged) entries, up to `count`, re-read from the start of the
pending list on every call; never any new entry. -/
def RGroup.readPending (g : RGroup) (s : RStream) (count : Nat) :
    List (Nat × Json) :=
  (s.entries.filter fun e => g.pel.contains e.1).take count

/-- `XACK <stream> <group> <msg_id>`. -/
def RGroup.xack (g : RGroup) (id : Nat) : RGroup :=
  { g with pel := g.pel.erase id }

/-- Stream plus the subscriber group's state. -/
structure MqState where
  stream : RStream
  group : RGroup
  deriving DecidableEq, Repr

/-- Interleaved operations on a channel while a consumer loop runs:
an append by some producer (`send`) or one iteration of the consumer's
read loop. -/
inductive MqOp where
  | send (d : Json)
  | readIter
  deriving DecidableEq, Repr

/-- Count sends in an operation sequence. -/
def sendCount (ops : List MqOp) : Nat :=
  ops.countP fun op => match op with | .send _ => true | .readIter => false

/-- One step of `consume` in its default configuration
(`stream_method="new_messages_only"`, `auto_ack=True`): a producer `send`
appends (its `ensure_group` is a no-op, `BUSYGROUP` being ignored), a read
iteration issues `XREADGROUP ... >` and acks every yielded entry. -/
def consumeStep (count : Nat) (st : MqState) : MqOp → MqState × List (Nat × Json)
  | .send d => ({ st with stream := (st.stream.xadd d).1 }, [])
  | .readIter =>
    let (g', out) := st.group.readNew st.stream count
    ({ st with group := out.foldl (fun g e => g.xack e.1) g' }, out)

/-- Run a `consume` loop over an operation sequence, concatenating the
yielded entries in order. -/
def runConsume (count : Nat) : MqState → List MqOp → MqState × List (Nat × Json)
  | st, [] => (st, [])
  | st, op :: rest =>
    let (st', out) := consumeStep count st op
    let (st'', outs) := runConsume count st' rest
    (st'', out ++ outs)

/-- The state at which a `consume(stream_from_beginning)` on a fresh group
starts, after the producer already appended `pre`:
`ensure_group` creates the group with start id `"0"`. -/
def consumeStart (pre : List Json) : MqState :=
  let s := pre.foldl (fun s d => (RStream.xadd s d).1) RStream.empty
  { stream := s, group := RGroup.create s true }

/-- One step of `consume_with_disconnect_check` as the SSE endpoint runs it
for `method=p` (`stream_method="pending_messages"`, `auto_ack=False`):
every read iteration issues `XREADGROUP ... 0` and never acks. -/
def pendingStep (count : Nat) (st : MqState) : MqOp → MqState × List (Nat × Json)
  | .send d => ({ st with stream := (st.stream.xadd d).1 }, [])
  | .readIter => (st, st.group.readPending st.stream count)

/-- Run a `method=p` subscription loop over an operation sequence. -/
def runPending (count : Nat) : MqState → List MqOp → MqState × List (Nat × Json)
  | st, [] => (st, [])
  | st, op :: rest =>
    let (st', out) := pendingStep count st op
    let (st'', outs) := runPending count st' rest
    (st'', out ++ outs)

/-! ## SSE framing (`app/core/rsmqueue.py` `sse_event`,
`app/api/v1/endpoints/message_queue.py` `subscribe_to_channel_events`) -/

/-- Two lowercase hex digits of a byte. -/
def hex2 (n : Nat) : String :=
  let digit := fun (d : Nat) =>
    if d < 10 then String.mk [Char.ofNat (48 + d)]
    else String.mk [Char.ofNat (97 + d - 10)]
  digit (n / 16 % 16) ++ digit (n % 16)

/-- `json.dumps` escaping of one character inside a string literal
(`ensure_ascii=False`: non-ASCII characters pass through). -/
def jsonEscapeChar (c : Char) : String :=
  if c = '"' then "\\\""
  else if c = '\\' then "\\\\"
  else if c = '\n' then "\\n"
  else if c = '\t' then "\\t"
  else if c = '\r' then "\\r"
  else if c.toNat = 8 then "\\b"
  else if c.toNat = 12 then "\\f"
  else if c.toNat < 32 then "\\u00" ++ hex2 c.toNat
  else String.mk [c]

/-- `json.dumps` of a string value. -/
def jsonDumpStr (s : String) : String :=
  "\"" ++ String.join (s.data.map jsonEscapeChar) ++ "\""

mutual

/-- `json.dumps(data, ensure_ascii=False, separators=(",", ":"))`: the
compact JSON encoding used by `_encode_payload` and `sse_event`. -/
def Json.dumps : Json → String
  | .null => "null"
  | .bool true => "true"
  | .bool false => "false"
  | .int n => toString n
  | .str s => jsonDumpStr s
  | .arr es => "[" ++ JsonList.dumpsElems es ++ "]"
  | .obj ps => "\x7b" ++ JsonPairs.dumpsPairs ps ++ "\x7d"

/-- Comma-separated compact encodings of array elements. -/
def JsonList.dumpsElems : JsonList → String
  | .nil => ""
  | .cons h .nil => Json.dumps h
  | .cons h (.cons h' t) => Json.dumps h ++ "," ++ JsonList.dumpsElems (.cons h' t)

/-- Comma-separated compact encodings of object bindings. -/
def JsonPairs.dumpsPairs : JsonPairs → String
  | .nil => ""
  | .cons k v .nil => jsonDumpStr k ++ ":" ++ Json.dumps v
  | .cons k v (.cons k' v' t) =>
    jsonDumpStr k ++ ":" ++ Json.dumps v ++ "," ++ JsonPairs.dumpsPairs (.cons k' v' t)

end

/-- The line boundaries of Python `str.splitlines()`: `\n`, `\r` (and the
pair `\r\n`), `\v`, `\f`, the separators `\x1c`–`\x1e`, `\x85` (NEL),
U+2028 (LINE SEPARATOR) and U+2029 (PARAGRAPH SEPARATOR). -/
def pyLineBreak (c : Char) : Bool :=
  c == '\n' || c == '\r' || c == '\x0B' || c == '\x0C'
    || c == '\x1C' || c == '\x1D' || c == '\x1E'
    || c == '\u0085' || c == '\u2028' || c == '\u2029'

/-- `str.splitlines()` over the full Python line-boundary set, with `\r\n`
as a single boundary. -/
def pySplitlinesAux : List Char → List Char → List (List Char)
  | [], acc => if acc.isEmpty then [] else [acc.reverse]
  | '\r' :: '\n' :: rest, acc => acc.reverse :: pySplitlinesAux rest []
  | c :: rest, acc =>
    if pyLineBreak c then acc.reverse :: pySplitlinesAux rest []
    else pySplitlinesAux rest (c :: acc)

/-- `payload.splitlines()` as a list of strings. -/
def pySplitlines (s : String) : List String :=
  (pySplitlinesAux s.data []).map String.mk

/-- `sse_event(data, event)` (app/core/rsmqueue.py): the SSE frame
`event: <event>\ndata: <compact-json>\n\n`, with multi-line payloads split
into one `data:` line each (`payload.splitlines() or [payload]`). -/
def sse_event (data : Json) (event : Option String) : String :=
  let payload := Json.dumps data
  let eventLines : List String :=
    match event with
    | some e => if e = "" then [] else ["event: " ++ e ++ "\n"]  -- `if event:`
    | none => []
  let payloadLines :=
    match pySplitlines payload with
    | [] => [payload]
    | l => l
  String.join (eventLines ++ payloadLines.map (fun chunk => "data: " ++ chunk ++ "\n") ++ ["\n"])

mutual

/-- Python `repr(x)` for values nested inside a `str()` of a container. -/
def pyReprStr : Json → String
  | .str s => "'" ++ s ++ "'"
  | .null => "None"
  | .bool true => "True"
  | .bool false => "False"
  | .int n => toString n
  | .arr es => "[" ++ pyReprElems es ++ "]"
  | .obj ps => "\x7b" ++ pyReprPairs ps ++ "\x7d"

/-- `repr` of list elements, `", "`-separated. -/
def pyReprElems : JsonList → String
  | .nil => ""
  | .cons h .nil => pyReprStr h
  | .cons h (.cons h' t) => pyReprStr h ++ ", " ++ pyReprElems (.cons h' t)

/-- `repr` of dict bindings, `", "`-separated. -/
def pyReprPairs : JsonPairs → String
  | .nil => ""
  | .cons k v .nil => "'" ++ k ++ "': " ++ pyReprStr v
  | .cons k v (.cons k' v' t) =>
    "'" ++ k ++ "': " ++ pyReprStr v ++ ", " ++ pyReprPairs (.cons k' v' t)

end

/-- Python `str(x)` for the payload values that can reach an f-string in
the SSE endpoint; only strings occur in this system's entries, the other
arms follow `str`'s standard rendering. -/
def pyFStr : Json → String
  | .str s => s
  | .null => "None"
  | .bool true => "True"
  | .bool false => "False"
  | .int n => toString n
  | .arr es => "[" ++ pyReprElems es ++ "]"
  | .obj ps => "\x7b" ++ pyReprPairs ps ++ "\x7d"

/-- `int(s)` for the `msg_id.split("-")[0]` timestamp extraction:
a non-empty digit string (optionally signed) or `ValueError`. -/
def pyIntOfString (s : String) : Except PyError Int :=
  let chars := s.data
  let (neg, digits) :=
    match chars with
    | '-' :: rest => (true, rest)
    | _ => (false, chars)
  if digits.isEmpty || !(digits.all Char.isDigit) then
    .error (.valueError ("invalid literal for int() with base 10: " ++ s))
  else
    let n : Nat := digits.foldl (fun acc c => acc * 10 + (c.toNat - 48)) 0
    .ok (if neg then -(n : Int) else (n : Int))

/-- `int(msg_id.split("-")[0])`: the millisecond part of an entry id. -/
def tsOfMsgId (msg_id : String) : Except PyError Int :=
  pyIntOfString (String.mk (msg_id.data.takeWhile fun c => c ≠ '-'))

/-- The per-entry loop of `subscribe_to_channel_events`'s
`stream_generator` (app/api/v1/endpoints/message_queue.py): for each
yielded `(msg_id, data)` build the payload
`{id, type: "done"|"data", data, ts, channel}`, emit it via `sse_event`
under event name `"system"` for `done` entries and the entry's own type
otherwise, and stop after emitting a `done` frame. -/
def processEntries (channel_id : String) :
    List (String × Json) → Except PyError (List String)
  | [] => .ok []
  | (msg_id, data) :: rest => do
    let event_type ← pyDictGet data "type" (.str "message")
    let ts ← tsOfMsgId msg_id
    let payload := Json.mkObj
      [("id", .str msg_id),
       ("type", .str (if event_type = .str "done" then "done" else "data")),
       ("data", data),
       ("ts", .int ts),
       ("channel", .str channel_id)]
    let sse_event_name := if event_type = .str "done" then "system" else pyFStr event_type
    let frame := sse_event payload (some sse_event_name)
    if event_type = .str "done" then
      return [frame]
    else
      let frames ← processEntries channel_id rest
      return frame :: frames

/-- The whole `stream_generator` body on a given yielded entry sequence:
the initial `connected` frame followed by the per-entry frames. -/
def stream_generator (channel_id consumer_id : String)
    (entries : List (String × Json)) : Except PyError (List String) := do
  let frames ← processEntries channel_id entries
  return sse_event (Json.mkObj [("type", .str "connected"), ("consumer", .str consumer_id)])
      (some "system") :: frames

/-! ## JSON text parsing (`json.loads`)

A recursive-descent parser for the JSON texts the collector handles.
Numbers are parsed as integers (no float occurs in any payload the claims
exercise); a float literal simply fails to parse, which the callers treat
like any other `JSONDecodeError`. -/

/-- Python/JSON whitespace (space, tab, newline, carriage return, and for
`str.strip` / `\s` purposes also `\f` and `\v`). -/
def pyIsSpace (c : Char) : Bool :=
  c = ' ' || c = '\t' || c = '\n' || c = '\r' || c.toNat = 11 || c.toNat = 12

/-- `str.strip()`. -/
def pyStrip (s : String) : String :=
  String.mk (((s.data.dropWhile pyIsSpace).reverse.dropWhile pyIsSpace).reverse)

/-- Skip insignificant JSON whitespace. -/
def jsonSkipWs (l : List Char) : List Char :=
  l.dropWhile fun c => c = ' ' || c = '\t' || c = '\n' || c = '\r'

/-- Value of a digit run. -/
def natOfDigits (ds : List Char) : Nat :=
  ds.foldl (fun acc c => acc * 10 + (c.toNat - 48)) 0

/-- Opening brace character (written via its code point). -/
def braceOpen : Char := Char.ofNat 123

/-- Closing brace character (written via its code point). -/
def braceClose : Char := Char.ofNat 125

mutual

/-- Parse one JSON value; `fuel` dominates the input length. -/
def parseJsonVal (fuel : Nat) (l : List Char) : Option (Json × List Char) :=
  match fuel with
  | 0 => none
  | fuel + 1 =>
    match jsonSkipWs l with
    | 'n' :: 'u' :: 'l' :: 'l' :: rest => some (.null, rest)
    | 't' :: 'r' :: 'u' :: 'e' :: rest => some (.bool true, rest)
    | 'f' :: 'a' :: 'l' :: 's' :: 'e' :: rest => some (.bool false, rest)
    | '"' :: rest => parseJsonStrBody fuel rest []
    | c :: rest =>
      if c = '-' then
        match rest.takeWhile Char.isDigit with
        | [] => none
        | ds =>
          match rest.drop ds.length with
          | '.' :: _ => none
          | 'e' :: _ => none
          | 'E' :: _ => none
          | rest' => some (.int (-(natOfDigits ds : Int)), rest')
      else if c.isDigit then
        let ds := (c :: rest).takeWhile Char.isDigit
        match (c :: rest).drop ds.length with
        | '.' :: _ => none
        | 'e' :: _ => none
        | 'E' :: _ => none
        | rest' => some (.int (natOfDigits ds : Int), rest')
      else if c = braceOpen then
        match jsonSkipWs rest with
        | c' :: rest' =>
          if c' = braceClose then some (.obj .nil, rest')
          else
            match parseJsonMembers fuel (c' :: rest') with
            | some (ps, rest'') => some (.obj ps, rest'')
            | none => none
        | [] => none
      else if c = '[' then
        match jsonSkipWs rest with
        | ']' :: rest' => some (.arr .nil, rest')
        | l' =>
          match parseJsonElems fuel l' with
          | some (es, rest'') => some (.arr es, rest'')
          | none => none
      else none
    | [] => none

/-- Parse the body of a string literal after the opening quote. -/
def parseJsonStrBody (fuel : Nat) (l : List Char) (acc : List Char) :
    Option (Json × List Char) :=
  match fuel with
  | 0 => none
  | fuel + 1 =>
    match l with
    | [] => none
    | '"' :: rest => some (.str (String.mk acc.reverse), rest)
    | '\\' :: e :: rest =>
      let esc : Option (Char × List Char) :=
        if e = '"' then some ('"', rest)
        else if e = '\\' then some ('\\', rest)
        else if e = '/' then some ('/', rest)
        else if e = 'b' then some (Char.ofNat 8, rest)
        else if e = 'f' then some (Char.ofNat 12, rest)
        else if e = 'n' then some ('\n', rest)
        else if e = 'r' then some ('\r', rest)
        else if e = 't' then some ('\t', rest)
        else if e = 'u' then
          match rest with
          | h1 :: h2 :: h3 :: h4 :: rest' =>
            let hv := fun (c : Char) =>
              if c.isDigit then some (c.toNat - 48)
              else if 'a' ≤ c && c ≤ 'f' then some (c.toNat - 87)
              else if 'A' ≤ c && c ≤ 'F' then some (c.toNat - 55)
              else none
            match hv h1, hv h2, hv h3, hv h4 with
            | some a, some b, some c, some d =>
              some (Char.ofNat (((a * 16 + b) * 16 + c) * 16 + d), rest')
            | _, _, _, _ => none
          | _ => none
        else none
      match esc with
      | some (c, rest') => parseJsonStrBody fuel rest' (c :: acc)
      | none => none
    | c :: rest => parseJsonStrBody fuel rest (c :: acc)

/-- Parse one-or-more `"key": value` members followed by the closing
brace. -/
def parseJsonMembers (fuel : Nat) (l : List Char) :
    Option (JsonPairs × List Char) :=
  match fuel with
  | 0 => none
  | fuel + 1 =>
    match jsonSkipWs l with
    | '"' :: rest =>
      match parseJsonStrBody fuel rest [] with
      | some (.str k, rest') =>
        (match jsonSkipWs rest' with
        | ':' :: rest'' =>
          match parseJsonVal fuel rest'' with
          | some (v, rest₃) =>
            (match jsonSkipWs rest₃ with
            | ',' :: rest₄ =>
              match parseJsonMembers fuel rest₄ with
              | some (ps, rest₅) => some (.cons k v ps, rest₅)
              | none => none
            | c :: rest₄ =>
              if c = braceClose then some (.cons k v .nil, rest₄) else none
            | [] => none)
          | none => none
        | _ => none)
      | _ => none
    | _ => none

/-- Parse one-or-more array elements followed by `]`. -/
def parseJsonElems (fuel : Nat) (l : List Char) :
    Option (JsonList × List Char) :=
  match fuel with
  | 0 => none
  | fuel + 1 =>
    match parseJsonVal fuel l with
    | some (v, rest) =>
      (match jsonSkipWs rest with
      | ',' :: rest' =>
        match parseJsonElems fuel rest' with
        | some (es, rest'') => some (.cons v es, rest'')
        | none => none
      | ']' :: rest' => some (.cons v .nil, rest')
      | _ => none)
    | none => none

end

/-- `json.loads(s)`: `none` models a raised `JSONDecodeError`. -/
def json_loads (s : String) : Option Json :=
  match parseJsonVal (s.length + 1) s.data with
  | some (v, rest) => if jsonSkipWs rest = [] then some v else none
  | none => none

/-! ## Sentence-marker text analysis (`app/utils/utils_text.py`)

`MARKER_START = MARKER_END = "┼"`; `marker_pattern = ┼(\d+)┼`. -/

/-- The sentence marker character `┼` (`MARKER_START` / `MARKER_END`). -/
def markerChar : Char := '┼'

/-- All non-overlapping matches of `┼(\d+)┼` (as `re.finditer` yields
them), left to right: `(start, end, sid)` in character positions.  A match
needs a maximal non-empty digit run directly followed by another `┼`.
`fuel` dominates the input length (each step consumes at least one
character). -/
def scanMarkersAux (fuel : Nat) : List Char → Nat → List (Nat × Nat × Nat)
  | [], _ => []
  | c :: rest, pos =>
    match fuel with
    | 0 => []
    | fuel + 1 =>
      if c = markerChar then
        let ds := rest.takeWhile Char.isDigit
        if !ds.isEmpty && (rest.drop ds.length).head? = some markerChar then
          (pos, pos + ds.length + 2, natOfDigits ds) ::
            scanMarkersAux fuel (rest.drop (ds.length + 1)) (pos + ds.length + 2)
        else
          scanMarkersAux fuel rest (pos + 1)
      else
        scanMarkersAux fuel rest (pos + 1)

/-- The marker matches of a character list. -/
def scanMarkers (l : List Char) (pos : Nat) : List (Nat × Nat × Nat) :=
  scanMarkersAux l.length l pos

/-- `re.search(marker_pattern, raw_text)` as a Boolean. -/
def hasMarker (s : String) : Bool :=
  !(scanMarkers s.data 0).isEmpty

/-- The segment dicts built from the marker matches: each segment's text
runs from its marker's end to the next marker's start (or to the end of
the text). -/
def segmentsOfMarks (chars : List Char) : List (Nat × Nat × Nat) → List Json
  | [] => []
  | (_, e, sid) :: rest =>
    let endPos :=
      match rest with
      | (s', _, _) :: _ => s'
      | [] => chars.length
    Json.mkObj [("sid", .int (sid : Int)),
        ("text", .str (String.mk ((chars.drop e).take (endPos - e))))] ::
      segmentsOfMarks chars rest

/-- The segment-validation loop shared verbatim by
`utils_text._try_parse_json_segments` and
`TranslationChunkCollector._try_parse_json_segments`: keep dict elements
with both `"sid"` and `"text"`, coercing `text` with `str(...)`. -/
def validSegments (segments : List Json) : List Json :=
  segments.filterMap fun seg =>
    if seg.isDict && seg.hasKey "sid" && seg.hasKey "text" then
      some (Json.mkObj [("sid", seg.getD "sid" .null),
        ("text", .str (pyFStr (seg.getD "text" .null)))])
    else
      none

/-- The shared body of both `_try_parse_json_segments` functions: `none`
unless the stripped text is a JSON dict whose `segments` is a non-empty
list with at least one valid `{sid, text}` element; then the valid
elements. -/
def tryParseJsonSegmentsCore (raw_text : String) : Option (List Json) :=
  let stripped := pyStrip raw_text
  if stripped.data.head? ≠ some braceOpen then none
  else
    match json_loads stripped with
    | none => none
    | some parsed =>
      if !parsed.isDict then none
      else
        match parsed.getD "segments" .null with
        | .arr es =>
          if es.toList.isEmpty then none
          else
            match validSegments es.toList with
            | [] => none
            | valid => some valid
        | _ => none

/-- `utils_text._try_parse_json_segments`: wraps the valid segments back
into a `{"segments": …}` dict. -/
def utilsTryParseJsonSegments (raw_text : String) : Option Json :=
  (tryParseJsonSegmentsCore raw_text).map fun valid =>
    Json.mkObj [("segments", Json.mkArr valid)]

/-- `analyze_raw_text_to_json(raw_text)` (app/utils/utils_text.py).
`addMarkers` stands for the external `add_sentence_markers` preprocessor
(called with `start_on_top_open=True, end_on_top_close=True,
skip_empty_lines=True, detect_line_wrapping=True`); the spec places that
preprocessor outside the core, and no claim exercises the unmarked-text
branch, so it is a parameter rather than an embedding. -/
def analyze_raw_text_to_json (addMarkers : String → String) (raw_text : String) : Json :=
  match utilsTryParseJsonSegments raw_text with
  | some jsonResult => jsonResult
  | none =>
    let original_text_marked :=
      if hasMarker raw_text then raw_text else addMarkers raw_text
    Json.mkObj [("segments",
      Json.mkArr (segmentsOfMarks original_text_marked.data
        (scanMarkers original_text_marked.data 0)))]

/-! ## Translation chunk collector
(`app/services/langgraph_chunk_processor.py`) -/

/-- `"<translated_text>"` as characters. -/
def openTagChars : List Char := "<translated_text>".data

/-- `"</translated_text>"` as characters. -/
def closeTagChars : List Char := "</translated_text>".data

/-- Index of the first occurrence of `needle` in `l`. -/
def findSub (l needle : List Char) : Option Nat :=
  (List.range (l.length + 1)).find? fun i => (l.drop i).take needle.length = needle

/-- `TranslationChunkCollector._extract_translated_text_content`: the
(stripped) inner text of the leftmost
`<translated_text>(.*?)</translated_text>` match, or the whole content
when the pattern does not match.  The leftmost non-greedy match runs from
the first opening tag to the first closing tag after it. -/
def extract_translated_text_content (content : String) : String :=
  match findSub content.data openTagChars with
  | none => content
  | some i =>
    let after := content.data.drop (i + openTagChars.length)
    match findSub after closeTagChars with
    | none => content
    | some j => pyStrip (String.mk (after.take j))

/-- Length of the leading `[^{}]*` run. -/
def nbRun (l : List Char) : Nat :=
  (l.takeWhile fun c => c ≠ braceOpen && c ≠ braceClose).length

/-- Candidate lengths of one `\{[^{}]*\}[^{}]*` iteration, in backtracking
priority order (the trailing `[^{}]*` is greedy; the inner `[^{}]*` is
forced to its maximal run, since any shorter run is followed by a
non-brace character, not the `\}` the pattern requires). -/
def innerOnceCands (l : List Char) : List Nat :=
  match l with
  | [] => []
  | c :: rest =>
    if c = braceOpen then
      let k1 := nbRun rest
      match rest.drop k1 with
      | c2 :: rest2 =>
        if c2 = braceClose then
          (List.range (nbRun rest2 + 1)).reverse.map fun k2 => k1 + 2 + k2
        else []
      | [] => []
    else []

/-- Candidate lengths of `(?:\{[^{}]*\}[^{}]*)*`, greedy (more iterations
first), with backtracking; `fuel` dominates the input length. -/
def starCands (fuel : Nat) (l : List Char) : List Nat :=
  match fuel with
  | 0 => [0]
  | fuel + 1 =>
    ((innerOnceCands l).flatMap fun t =>
      (starCands fuel (l.drop t)).map fun rest => t + rest) ++ [0]

/-- Candidate lengths of the capture group
`\{[^{}]*(?:\{[^{}]*\}[^{}]*)*\}` at the current position, in
backtracking priority order. -/
def metaGroupCands (l : List Char) : List Nat :=
  match l with
  | [] => []
  | c :: rest =>
    if c = braceOpen then
      (List.range (nbRun rest + 1)).reverse.flatMap fun k =>
        (starCands rest.length (rest.drop k)).filterMap fun st =>
          match rest.drop (k + st) with
          | c2 :: _ => if c2 = braceClose then some (1 + k + st + 1) else none
          | [] => none
    else []

/-- Acceptance of the lookahead-like tail `\s*(?:<translated_text>|$)`
after the group: some amount of whitespace followed by the opening tag,
or nothing but whitespace to the end of the text. -/
def metaSuffixOk (l : List Char) : Bool :=
  let w := (l.takeWhile pyIsSpace).length
  ((List.range (w + 1)).any fun k => (l.drop k).take openTagChars.length = openTagChars)
    || l.all pyIsSpace

/-- `re.search` of the first metadata pattern
`(\{[^{}]*(?:\{[^{}]*\}[^{}]*)*\})\s*(?:<translated_text>|$)`:
positions left to right, candidates in priority order; the captured
group. -/
def metaRegex1Search : List Char → Option (List Char)
  | [] => none
  | l@(_ :: rest) =>
    match ((metaGroupCands l).find? fun g => metaSuffixOk (l.drop g)).map l.take with
    | some g => some g
    | none => metaRegex1Search rest

/-- Acceptance of `\s*<translated_text>` after the simpler pattern's
group. -/
def meta2SuffixOk (l : List Char) : Bool :=
  let w := (l.takeWhile pyIsSpace).length
  (List.range (w + 1)).any fun k => (l.drop k).take openTagChars.length = openTagChars

/-- `re.search` of the fallback pattern `(\{.*?\})\s*<translated_text>`:
at the leftmost viable position, the non-greedy `.*?` selects the nearest
closing brace whose tail accepts. -/
def metaRegex2Search : List Char → Option (List Char)
  | [] => none
  | l@(c :: rest) =>
    if c = braceOpen then
      match (List.range l.length).find? fun q =>
          decide (1 ≤ q) && (l.drop q).head? = some braceClose
            && meta2SuffixOk (l.drop (q + 1)) with
      | some q => some (l.take (q + 1))
      | none => metaRegex2Search rest
    else
      metaRegex2Search rest

/-- `TranslationChunkCollector._extract_metadata_json`: find a JSON-object
group before `<translated_text>` (or the end) with the primary pattern,
falling back to the simpler pattern; parse it; keep it only when it is a
dict. -/
def extract_metadata_json (ai_message_content : String) : Option Json :=
  if ai_message_content = "" then none
  else
    let jm :=
      match metaRegex1Search ai_message_content.data with
      | some g => some g
      | none => metaRegex2Search ai_message_content.data
    match jm with
    | none => none
    | some g =>
      match json_loads (String.mk g) with
      | some (.obj ps) => some (.obj ps)
      | _ => none

/-- `TranslationChunkCollector._try_parse_json_segments`: the valid
segment list itself (no wrapping), `none` when the caller should fall back
to marker parsing. -/
def procTryParseJsonSegments (content : String) : Option (List Json) :=
  tryParseJsonSegmentsCore content

/-- `TranslationChunkCollector.format_result` over the accumulated AI
text: metadata extraction, `<translated_text>` extraction, direct JSON
segments, marker-parse fallback, and the `_raw` escape hatch.  The result
dict's insertion order is `segments`, `metadata?`, `_raw?`. -/
def TranslationChunkCollector.format_result (addMarkers : String → String)
    (ai_message_content : String) : Json :=
  if ai_message_content = "" then Json.mkObj [("segments", Json.mkArr [])]
  else
    let metadata := extract_metadata_json ai_message_content
    let content_to_parse := extract_translated_text_content ai_message_content
    let segments : List Json :=
      match procTryParseJsonSegments content_to_parse with
      | some json_segments => json_segments
      | none =>
        match (analyze_raw_text_to_json addMarkers content_to_parse).getD
            "segments" (Json.mkArr []) with
        | .arr es => es.toList
        | _ => []
    let base := [("segments", Json.mkArr segments)] ++
      (match metadata with
      | some m => if m.truthy then [("metadata", m)] else []  -- `if metadata:`
      | none => [])
    if segments.length > 0 then Json.mkObj base
    else Json.mkObj (base ++ [("_raw", .str ai_message_content)])

/-! ## Translation orchestrator
(`app/api/v1/endpoints/file_translation_task.py` with
`process_langgraph_chunk` from `langgraph_chunk_processor.py`) -/

/-- Set a key in an ordered dict (replace in place, else append) —
Python dict assignment. -/
def Json.setKey (j : Json) (k : String) (v : Json) : Json :=
  match j with
  | .obj ps =>
    let l := ps.toList
    if (l.lookup k).isSome then
      .obj (JsonPairs.ofList (l.map fun p => if p.1 = k then (k, v) else p))
    else
      .obj (JsonPairs.ofList (l ++ [(k, v)]))
  | _ => j

/-- The dict shape of a `ParsedChunk` TypedDict, with keys in the order
the source's dict literals build them (this is what
`process_langgraph_chunk` broadcasts as `payload["data"]`). -/
def ParsedChunk.toJson : ParsedChunk → Json
  | .metadata run_id =>
    Json.mkObj [("event", .str "metadata"), ("run_id", run_id)]
  | .values messages i msg =>
    Json.mkObj [("event", .str "values"), ("messages", messages),
      ("is_interrupted", .bool i), ("interrupt_msg", msg)]
  | .tasks tid nm err trig st cp i msg =>
    if st then
      Json.mkObj [("event", .str "tasks"), ("task_id", tid), ("task_name", nm),
        ("task_triggers", trig), ("task_error", err), ("is_node_started", .bool st),
        ("is_node_completed", .bool cp), ("is_interrupted", .bool i),
        ("interrupt_msg", msg)]
    else
      Json.mkObj [("event", .str "tasks"), ("task_id", tid), ("task_name", nm),
        ("task_error", err), ("task_triggers", trig), ("is_node_started", .bool st),
        ("is_node_completed", .bool cp), ("is_interrupted", .bool i),
        ("interrupt_msg", msg)]
  | .updates node_name node_output i msg =>
    Json.mkObj [("event", .str "updates"), ("node_name", .str node_name),
      ("node_output", node_output), ("is_interrupted", .bool i),
      ("interrupt_msg", msg)]
  | .events en ai tool ed cd =>
    Json.mkObj [("event", .str "events"), ("event_name", .str en),
      ("is_ai_message", .bool ai), ("is_tool_call", .bool tool),
      ("event_data", ed), ("chunk_data", cd.getD .null)]

/-- The mutable fields of a `LangGraphChunkCollector`. -/
structure CollectorState where
  raw_chunks : List ParsedChunk
  ai_message_content : String
  metadata : Json
  deriving Repr

/-- A freshly constructed collector. -/
def CollectorState.init : CollectorState :=
  ⟨[], "", Json.mkObj []⟩

/-- `CHUNK_COLLECTOR_MAP`-backed `get_langgraph_chunk_collector`: the two
translation agents are supported, anything else raises
`ValueError(f"Unsupported ai_agent_id: {ai_agent_id}")`. -/
def get_langgraph_chunk_collector (ai_agent_id : Json) :
    Except PyError CollectorState :=
  if ai_agent_id = .str "task_translation_a1" || ai_agent_id = .str "task_translation_a2" then
    .ok CollectorState.init
  else
    .error (.valueError ("Unsupported ai_agent_id: " ++ pyFStr ai_agent_id))

/-- An observable side effect of the translation orchestrator: the
SQL-function status/result updates and the queue appends. -/
inductive TrAction where
  | updateStatus (ai_agent_data : Option Json) (status : String) (message : Option String)
  | updateResult (translated_text ai_agent_data : Json) (status : String)
      (message : Option String)
  | mqSend (channel_id : String) (data : Json)
  deriving DecidableEq, Repr

/-- `mq.broadcast` in the translation pipeline. -/
def trBroadcast (channel_id event_type : String) (payload : Json) : TrAction :=
  .mqSend channel_id (Json.mkObj [("type", .str event_type), ("payload", payload)])

/-- `process_langgraph_chunk(mq, channel_id, parsed_chunk, chunk_collector)`
(app/services/langgraph_chunk_processor.py): collect the chunk, broadcast
progress, and accumulate AI text.  Its `last_message_type` is local and
starts at `"ai"` on every call, so the `on_chat_model_end` frame always
carries `type: "ai"`. -/
def process_langgraph_chunk (channel_id : String) (parsed_chunk : Option ParsedChunk)
    (col : CollectorState) : CollectorState × List TrAction :=
  match parsed_chunk with
  | none => (col, [])
  | some pc =>
    let col := { col with raw_chunks := col.raw_chunks ++ [pc] }
    if pc.event = "metadata" || pc.event = "tasks" || pc.event = "updates" then
      let col :=
        match pc with
        | .metadata run_id =>
          if run_id.truthy then
            { col with metadata := col.metadata.setKey "run_id" run_id }
          else col
        | _ => col
      (col, [trBroadcast channel_id "langgraph_stream_chunk"
        (Json.mkObj [("type", .str pc.event), ("data", pc.toJson)])])
    else if pc.event = "events" then
      match pc with
      | .events event_name is_ai is_tool _ chunk_data =>
        if event_name = "on_chat_model_start" then
          (col, [])
        else if event_name = "on_chat_model_stream" then
          let lt := if is_ai then "ai" else if is_tool then "tool" else "unknown"
          let cd := chunk_data.getD .null
          let col :=
            if is_ai && cd.truthy && cd.isStr then
              match cd with
              | .str s => { col with ai_message_content := col.ai_message_content ++ s }
              | _ => col
            else col
          (col, [trBroadcast channel_id "model_stream_chunk"
            (Json.mkObj [("type", .str lt), ("message", cd),
              ("status", .str "processing")])])
        else if event_name = "on_chat_model_end" then
          (col, [trBroadcast channel_id "model_stream_chunk"
            (Json.mkObj [("type", .str "ai"), ("message", .str ""),
              ("status", .str "completed")])])
        else (col, [])
      | _ => (col, [])
    else (col, [])

/-- Modelled from the spec: `AssistantID.from_agent_id` is called by
`file_translation_task.py` but its definition is not among the retained
source files (the repository kept the `langgraph_client.py` variant
without it; the spec's design notes flag such duplicate-module
artifacts).  Per the spec's agent-client contract the preset's agent id
selects the assistant, so the model passes the id through; the
unsupported-agent rejection the spec requires lives in
`get_langgraph_chunk_collector`, which is in the sources. -/
def AssistantID.from_agent_id (ai_agent_id : Json) : Json := ai_agent_id

/-- Loop state of the translation orchestrator: the collector and the
local `ai_agent_data` dict. -/
structure TrLoopState where
  col : CollectorState
  aiData : Json

/-- The translation orchestrator's chunk loop: parse, process, and track
`last_run_id` in the local `ai_agent_data` (no DB write per chunk here). -/
def runTranslationLoop (channel_id : String) :
    TrLoopState → List StreamPart → TrLoopState × List TrAction × Option PyError
  | st, [] => (st, [], none)
  | st, c :: rest =>
    match LangGraphClientSDK.parse_chunk c with
    | .error e => (st, [], some e)
    | .ok parsed =>
      let (col', acts) := process_langgraph_chunk channel_id parsed st.col
      let aiData' :=
        match parsed with
        | some (.metadata run_id) =>
          if run_id.truthy then st.aiData.setKey "last_run_id" run_id else st.aiData
        | _ => st.aiData
      let (st'', acts', err) := runTranslationLoop channel_id ⟨col', aiData'⟩ rest
      (st'', acts ++ acts', err)

/-- Inputs of one translation orchestrator run: the ids, the database
lookup results (`none` models a missing row), the thread id
`create_thread()` returns, the raw agent stream, and the external
sentence-marker preprocessor. -/
structure TranslationRunInput where
  rsmq_channel_id : String
  file_id : String
  file_preset_id : String
  preset : Option Json
  original : Option Json
  thread_id : String
  stream : List StreamPart
  addMarkers : String → String

/-- Outcome of one translation orchestrator run. -/
structure TranslationRunResult where
  trace : List TrAction
  raised : Option PyError

/-- The `except ValueError` / `except Exception` handlers of
`bg_atask_create_file_translation`: persist `failed` with the raw
diagnostic for `ValueError`, the opaque
`"System error (<ErrorKind>). Check the server logs for details."`
otherwise. -/
def translationFailureUpdate (e : PyError) : TrAction :=
  if e.isValueError then
    .updateStatus none "failed" (some e.toMessage)
  else
    .updateStatus none "failed"
      (some ("System error (" ++ e.typeName ++ "). Check the server logs for details."))

/-- `bg_atask_create_file_translation`
(app/api/v1/endpoints/file_translation_task.py): preset and original-text
lookup (raising `ValueError` with the raw diagnostic when missing), the
`in_progress` status write, collector construction, the chunk loop,
result formatting, the `completed` write, the final `done` entry, and the
two exception handlers. -/
def bg_atask_create_file_translation (inp : TranslationRunInput) :
    TranslationRunResult :=
  match inp.preset with
  | none =>
    { trace := [translationFailureUpdate
        (.valueError ("File preset not found: " ++ inp.file_preset_id))],
      raised := some (.valueError ("File preset not found: " ++ inp.file_preset_id)) }
  | some preset_data =>
    let ai_agent_id := preset_data.getD "ai_agent_id" (.str "task_translation_a1")
    let _assistant_id := AssistantID.from_agent_id ai_agent_id
    match inp.original with
    | none =>
      { trace := [translationFailureUpdate
          (.valueError ("Original text not found for file: " ++ inp.file_id))],
        raised := some (.valueError ("Original text not found for file: " ++ inp.file_id)) }
    | some original_data =>
      let original_text := original_data.getD "original_text" (Json.mkObj [])
      let _prompt := Json.dumps original_text
      let ai_agent_data := Json.mkObj
        [("agent_id", ai_agent_id), ("thread_id", .str inp.thread_id),
         ("last_run_id", .str ""), ("rsmq_channel_id", .str inp.rsmq_channel_id)]
      let up1 : TrAction := .updateStatus (some ai_agent_data) "in_progress" none
      match get_langgraph_chunk_collector ai_agent_id with
      | .error e =>
        { trace := [up1, translationFailureUpdate e], raised := some e }
      | .ok col0 =>
        let (st, loopActs, err) :=
          runTranslationLoop inp.rsmq_channel_id ⟨col0, ai_agent_data⟩ inp.stream
        match err with
        | some e =>
          { trace := up1 :: loopActs ++ [translationFailureUpdate e],
            raised := some e }
        | none =>
          let translated_text :=
            TranslationChunkCollector.format_result inp.addMarkers
              st.col.ai_message_content
          { trace := up1 :: loopActs ++
              [.updateResult translated_text st.aiData "completed" none,
               .mqSend inp.rsmq_channel_id (Json.mkObj [("type", .str "done")])],
            raised := none }

/-! ## Concrete inputs used by the claims -/

/-- The accumulated AI text of the translation-artifact scenario:
`{"summary":"s"}<translated_text>┼1┼Hello.┼2┼World.</translated_text>`. -/
def translationScenarioInput : String :=
  "\x7b\"summary\":\"s\"\x7d<translated_text>┼1┼Hello.┼2┼World.</translated_text>"

/-- The artifact the scenario expects:
`{segments: [{sid: 1, text: "Hello."}, {sid: 2, text: "World."}],
metadata: {summary: "s"}}`. -/
def translationScenarioExpected : Json := Json.mkObj
  [("segments", Json.mkArr
      [Json.mkObj [("sid", .int 1), ("text", .str "Hello.")],
       Json.mkObj [("sid", .int 2), ("text", .str "World.")]]),
   ("metadata", Json.mkObj [("summary", .str "s")])]

/-! ## Claims -/

/-- C9: for accumulated AI text
`{"summary":"s"}<translated_text>┼1┼Hello.┼2┼World.</translated_text>`,
`TranslationChunkCollector.format_result` returns exactly
`{segments: [{sid: 1, text: "Hello."}, {sid: 2, text: "World."}],
metadata: {summary: "s"}}`: the leading JSON object is parsed into
`metadata`, the inner text of the `translated_text` tags is the body, and
the `┼N┼` markers are split into sid/text segments.  (The result does not
depend on the external sentence-marker preprocessor: the body is already
marked, so the theorem quantifies over it.) -/
theorem C9_translation_artifact :
    ∀ addMarkers : String → String,
      TranslationChunkCollector.format_result addMarkers translationScenarioInput =
        translationScenarioExpected := by
  intro addMarkers
  have h1 : extract_metadata_json translationScenarioInput =
      some (Json.mkObj [("summary", .str "s")]) := by decide
  have h2 : extract_translated_text_content translationScenarioInput =
      "┼1┼Hello.┼2┼World." := by decide
  have h3 : procTryParseJsonSegments "┼1┼Hello.┼2┼World." = none := by decide
  have h4 : hasMarker "┼1┼Hello.┼2┼World." = true := by decide
  have h5 : utilsTryParseJsonSegments "┼1┼Hello.┼2┼World." = none := by decide
  simp only [TranslationChunkCollector.format_result, analyze_raw_text_to_json,
    h1, h2, h3, h4, h5, if_true, ite_true]
  decide

/-- C6: attachment-ingestion scenario at the concrete failing input.  With
original prompt `"P"` and attachments `a.txt ↦ "CTX"` (fetch succeeds) and
`b.png`, the source's `prompt = f"\n\n{file_content}"` REPLACES the prompt,
so the prompt sent to the agent is `"\n\nCTX"`, not the claimed
`"P" ++ "\n\n" ++ "CTX"`; the non-txt attachment is skipped and an HTTP
failure on `a.txt` would leave the prompt unchanged. -/
theorem C6_attachment_ingestion_failing_input :
    (processFiles "P" [⟨"txt", "u1"⟩, ⟨"png", "u2"⟩]
        (fun u => if u = "u1" then some "CTX" else none) = "\n\nCTX")
      ∧ "\n\nCTX" ≠ "P" ++ "\n\n" ++ "CTX"
      ∧ (processFiles "P" [⟨"txt", "u1"⟩, ⟨"png", "u2"⟩] (fun _ => none) = "P")
      ∧ (atask_for_create_chatbot_message
          { task_thread_id := "tt", message_id := "m1", message_thread_id := "mt",
            content := "P", files := [⟨"txt", "u1"⟩, ⟨"png", "u2"⟩],
            assistant_id := AssistantID.TASK_TRANSLATION, hitl_mode := false,
            new_thread_id := "nt",
            fetch := fun u => if u = "u1" then some "CTX" else none,
            stream := [] }).prompt_sent = "\n\nCTX" := by
  refine ⟨by decide, by decide, by decide, ?_⟩
  rfl

/-! ### Payload shapes on which `parse_chunk` cannot raise (claim C10) -/

/-- Shape required of a value that the parser will `len(...)`, index at
`[0]`, and probe with `.get("value", {}).get("msg", None)`
(the `interrupts` field of a completed `tasks` chunk and the
`__interrupt__` field inside an `updates` node output): a list whose head,
if any, is a dict whose `value` (when present) is a dict. -/
def interruptListWf : Json → Bool
  | .arr .nil => true
  | .arr (.cons h _) => h.isDict && (h.getD "value" (Json.mkObj [])).isDict
  | _ => false

/-- Shape required of the `__interrupt__` payload of a `values` chunk. -/
def valuesInterruptWf : Json → Bool
  | .arr .nil => true
  | .arr (.cons h _) =>
    h.isDict &&
      (match h.lookup "value" with
      | some vv => vv.isDict
      | none => true)
  | _ => false

/-- Shape required of the `messages` value of a plain `values` chunk: the
debug log subscripts `messages[-1]` whenever `messages` is truthy, which
succeeds only on (then necessarily non-empty) lists and strings. -/
def messagesWf (m : Json) : Bool :=
  !m.truthy || m.isList || m.isStr

/-- Shape on which the `values` arm of `parse_chunk` cannot raise. -/
def valuesWf (data : Json) : Bool :=
  data.isDict &&
    (match data.lookup "__interrupt__" with
    | some v => valuesInterruptWf v
    | none => messagesWf (data.getD "messages" (Json.mkArr [])))

/-- Shape on which the `tasks` arm of `parse_chunk` cannot raise: a dict
that carries `name`/`id`/`triggers` when it is a start chunk and
`name`/`id`/`error`/well-shaped `interrupts` when it is a completion
chunk. -/
def tasksWf : Json → Bool
  | .obj ps =>
    let l := ps.toList
    (if (l.lookup "input").isSome && !(l.lookup "result").isSome then
      (l.lookup "name").isSome && (l.lookup "id").isSome && (l.lookup "triggers").isSome
    else true) &&
    (if (l.lookup "result").isSome then
      (l.lookup "name").isSome && (l.lookup "id").isSome && (l.lookup "error").isSome &&
        (match l.lookup "interrupts" with
        | some ints => interruptListWf ints
        | none => false)
    else true)
  | _ => false

/-- Shape on which the `updates` arm of `parse_chunk` cannot raise: a dict
whose first value is not an empty list, and whose first value's head (when
it is a list of dicts) has a well-shaped `__interrupt__`. -/
def updatesWf : Json → Bool
  | .obj .nil => true
  | .obj (.cons _ v _) =>
    (match v with
    | .arr .nil => false
    | .arr (.cons h _) =>
      !h.isDict || interruptListWf (h.getD "__interrupt__" (Json.mkArr []))
    | _ => true)
  | _ => false

/-- Shape on which the `events` arm of `parse_chunk` cannot raise: a dict
whose `on_chat_model_stream` payload carries a dict `data` with a dict
`chunk` whose `tool_call_chunks` is a list of dicts. -/
def eventsWf : Json → Bool
  | .obj ps =>
    (if (Json.obj ps).getD "event" .null = .str "on_chat_model_stream" then
      (let df := (Json.obj ps).getD "data" .null
       df.isDict &&
        (let cd := df.getD "chunk" (Json.mkObj [])
         cd.isDict &&
          (match cd.getD "tool_call_chunks" (Json.mkArr []) with
          | .arr es => es.toList.all Json.isDict
          | _ => false)))
    else true)
  | _ => false

/-- The chunk shapes on which `parse_chunk` is exception-free: anything
for events outside the five handled kinds (and for `metadata`), and the
per-arm payload shapes above. -/
def chunk_wf (c : StreamPart) : Bool :=
  if c.event = "values" then valuesWf c.data
  else if c.event = "tasks" then tasksWf c.data
  else if c.event = "updates" then updatesWf c.data
  else if c.event = "events" then eventsWf c.data
  else true

/-- On a well-shaped non-empty interrupt list, the shared
`interrupts[0].get("value", {}).get("msg", None)` extraction succeeds. -/
theorem LangGraphClientSDK.interruptMsgOfList_ok (h0 : Json) (t : JsonList)
    (h : interruptListWf (.arr (.cons h0 t)) = true) :
    ∃ m, LangGraphClientSDK.interruptMsgOfList (.arr (.cons h0 t)) = .ok m := by
  simp only [interruptListWf, Bool.and_eq_true, Json.isDict] at h
  obtain ⟨hd, hv⟩ := h
  match h0, hd with
  | .obj hps, _ =>
    unfold LangGraphClientSDK.interruptMsgOfList
    simp only [pyGetIdx0, bind, Except.bind, pyDictGet]
    rcases hvv : (Json.obj hps).getD "value" (Json.mkObj []) with _ | b | n | s | es | vvps <;>
      rw [hvv] at hv <;> simp [Json.isDict] at hv
    simp only [hvv, bind, Except.bind]
    exact ⟨_, rfl⟩

/-- The `tasks` arm of `LangGraphClientSDK.parse_chunk` cannot raise on `tasksWf` data. -/
theorem tasksLeg (ps : JsonPairs) (h : tasksWf (.obj ps) = true) :
    ∃ r, LangGraphClientSDK.parse_chunk ⟨"tasks", .obj ps⟩ = .ok r := by
  simp only [tasksWf, Bool.and_eq_true] at h
  obtain ⟨hstart, hdone⟩ := h
  unfold LangGraphClientSDK.parse_chunk
  simp only [Json.hasKey, Json.lookup, Json.isDict, reduceCtorEq, decide_False, decide_True,
    Bool.false_and, Bool.true_and, Bool.and_self, if_false, if_true, String.reduceEq,
    Json.getD, bind, Except.bind, pyContains]
  rcases hi : List.lookup "input" ps.toList with _ | vi <;>
    rcases hr : List.lookup "result" ps.toList with _ | vr
  · -- neither input nor result
    simp only [hi, hr, Option.isSome_none, Bool.false_eq_true, if_false, bind, Except.bind]
    exact ⟨_, rfl⟩
  · -- result only: completed branch
    rw [hr] at hdone
    simp only [Option.isSome_some, if_true, Bool.and_eq_true] at hdone
    obtain ⟨⟨⟨hn, hid⟩, herr⟩, hints⟩ := hdone
    rcases Option.isSome_iff_exists.mp hn with ⟨nv, hnv⟩
    rcases Option.isSome_iff_exists.mp hid with ⟨iv, hiv⟩
    rcases Option.isSome_iff_exists.mp herr with ⟨ev, hev⟩
    rcases hin : List.lookup "interrupts" ps.toList with _ | ints
    · rw [hin] at hints; exact absurd hints (by simp)
    · rw [hin] at hints
      simp only [hi, hr, hin, hnv, hiv, hev, Option.isSome_none, Option.isSome_some,
        Bool.false_eq_true, if_false, if_true, bind, Except.bind, pyGetStrKey, pyDictGet,
        Json.getD, Json.lookup]
      match ints, hints with
      | .arr .nil, _ =>
        simp only [pyLen, JsonList.toList, List.length_nil, gt_iff_lt, Nat.lt_irrefl,
          decide_False, Bool.false_eq_true, if_false, bind, Except.bind]
        exact ⟨_, rfl⟩
      | .arr (.cons h0 t), hints =>
        obtain ⟨m, hm⟩ := LangGraphClientSDK.interruptMsgOfList_ok h0 t hints
        simp only [pyLen, JsonList.toList, List.length_cons, gt_iff_lt, Nat.succ_pos,
          decide_True, if_true, hm, bind, Except.bind]
        exact ⟨_, rfl⟩
  · -- input only: started branch
    rw [hi, hr] at hstart
    simp only [Option.isSome_some, Option.isSome_none, Bool.not_false, Bool.and_self,
      true_and, and_true, if_true, Bool.and_eq_true] at hstart
    obtain ⟨⟨hn, hid⟩, ht⟩ := hstart
    rcases Option.isSome_iff_exists.mp hn with ⟨nv, hnv⟩
    rcases Option.isSome_iff_exists.mp hid with ⟨iv, hiv⟩
    rcases Option.isSome_iff_exists.mp ht with ⟨tv, htv⟩
    simp only [hi, hr, Option.isSome_some, Option.isSome_none, Bool.not_false, if_true,
      bind, Except.bind, pyGetStrKey, hnv, hiv, htv]
    exact ⟨_, rfl⟩
  · -- both input and result: completed branch (startedCond false)
    rw [hr] at hdone
    simp only [Option.isSome_some, if_true, Bool.and_eq_true] at hdone
    obtain ⟨⟨⟨hn, hid⟩, herr⟩, hints⟩ := hdone
    rcases Option.isSome_iff_exists.mp hn with ⟨nv, hnv⟩
    rcases Option.isSome_iff_exists.mp hid with ⟨iv, hiv⟩
    rcases Option.isSome_iff_exists.mp herr with ⟨ev, hev⟩
    rcases hin : List.lookup "interrupts" ps.toList with _ | ints
    · rw [hin] at hints; exact absurd hints (by simp)
    · rw [hin] at hints
      simp only [hi, hr, hin, hnv, hiv, hev, Option.isSome_some, Bool.not_true,
        Bool.false_eq_true, if_false, if_true, bind, Except.bind, pyGetStrKey, pyDictGet,
        Json.getD, Json.lookup]
      match ints, hints with
      | .arr .nil, _ =>
        simp only [pyLen, JsonList.toList, List.length_nil, gt_iff_lt, Nat.lt_irrefl,
          decide_False, Bool.false_eq_true, if_false, bind, Except.bind]
        exact ⟨_, rfl⟩
      | .arr (.cons h0 t), hints =>
        obtain ⟨m, hm⟩ := LangGraphClientSDK.interruptMsgOfList_ok h0 t hints
        simp only [pyLen, JsonList.toList, List.length_cons, gt_iff_lt, Nat.succ_pos,
          decide_True, if_true, hm, bind, Except.bind]
        exact ⟨_, rfl⟩
/-- `.get("args")` succeeds on every element of a list of dicts. -/
theorem mapM_args_ok (es : List Json) (h : es.all Json.isDict = true) :
    ∃ l, es.mapM (fun e => pyDictGet e "args" .null) = .ok l := by
  induction es with
  | nil => exact ⟨[], rfl⟩
  | cons e rest ih =>
    simp only [List.all_cons, Bool.and_eq_true] at h
    obtain ⟨he, hrest⟩ := h
    obtain ⟨l, hl⟩ := ih hrest
    match e, he with
    | .obj eps, _ =>
      refine ⟨((Json.obj eps).getD "args" .null) :: l, ?_⟩
      rw [List.mapM_cons]
      have hfe : pyDictGet (Json.obj eps) "args" .null =
          .ok ((Json.obj eps).getD "args" .null) := rfl
      rw [hfe, hl]
      rfl

/-- The tool-call tail cannot raise when `tool_call_chunks` is a list of
dicts. -/
theorem LangGraphClientSDK.eventsToolCallPath_ok (df : Json) (cps : JsonPairs)
    (h : (match (Json.obj cps).getD "tool_call_chunks" (Json.mkArr []) with
      | .arr es => es.toList.all Json.isDict
      | _ => false) = true) :
    ∃ r, LangGraphClientSDK.eventsToolCallPath df (.obj cps) = .ok r := by
  unfold LangGraphClientSDK.eventsToolCallPath
  have hfe : pyDictGet (Json.obj cps) "tool_call_chunks" (Json.mkArr []) =
      .ok ((Json.obj cps).getD "tool_call_chunks" (Json.mkArr [])) := rfl
  rw [hfe]
  rcases htc : (Json.obj cps).getD "tool_call_chunks" (Json.mkArr []) with _ | b | n | s | es | tps <;>
    rw [htc] at h
  · exact absurd h (by simp)
  · exact absurd h (by simp)
  · exact absurd h (by simp)
  · exact absurd h (by simp)
  · obtain ⟨l, hl⟩ := mapM_args_ok es.toList h
    have hit : pyIterElems (Json.arr es) = .ok es.toList := rfl
    simp only [bind, Except.bind, hit, hl]
    split <;> exact ⟨_, rfl⟩
  · exact absurd h (by simp)
/-- The `events` arm of `LangGraphClientSDK.parse_chunk` cannot raise on `eventsWf` data. -/
theorem eventsLeg (ps : JsonPairs) (h : eventsWf (.obj ps) = true) :
    ∃ r, LangGraphClientSDK.parse_chunk ⟨"events", .obj ps⟩ = .ok r := by
  unfold LangGraphClientSDK.parse_chunk
  simp only [Json.hasKey, Json.lookup, Json.isDict, reduceCtorEq, decide_False, decide_True,
    Bool.false_and, Bool.true_and, Bool.and_self, if_false, if_true, String.reduceEq,
    bind, Except.bind]
  have hev : pyDictGet (Json.obj ps) "event" .null =
      .ok ((Json.obj ps).getD "event" .null) := rfl
  rw [hev]
  by_cases h1 : (Json.obj ps).getD "event" .null = .str "on_chat_model_start"
  · simp only [h1, if_pos rfl]
    exact ⟨_, rfl⟩
  · simp only [if_neg h1]
    by_cases h2 : (Json.obj ps).getD "event" .null = .str "on_chat_model_end"
    · simp only [h2, if_pos rfl]
      exact ⟨_, rfl⟩
    · simp only [if_neg h2]
      by_cases h3 : (Json.obj ps).getD "event" .null = .str "on_chat_model_stream"
      · simp only [h3, if_pos rfl]
        rw [eventsWf, if_pos h3] at h
        have hdfe : pyDictGet (Json.obj ps) "data" .null =
            .ok ((Json.obj ps).getD "data" .null) := rfl
        rw [hdfe]
        rcases hdfv : (Json.obj ps).getD "data" .null with _ | b | n | s | es | dps <;>
          rw [hdfv] at h <;>
          simp only [Json.isDict, Bool.false_and, Bool.true_and] at h
        · exact absurd h (by simp)
        · exact absurd h (by simp)
        · exact absurd h (by simp)
        · exact absurd h (by simp)
        · exact absurd h (by simp)
        have hcde : pyDictGet (Json.obj dps) "chunk" (Json.mkObj []) =
            .ok ((Json.obj dps).getD "chunk" (Json.mkObj [])) := rfl
        simp only [bind, Except.bind, hcde]
        rcases hcdv : (Json.obj dps).getD "chunk" (Json.mkObj []) with _ | b | n | s | es | cps <;>
          rw [hcdv] at h <;>
          simp only [Json.isDict, Bool.false_and, Bool.true_and] at h
        · exact absurd h (by simp)
        · exact absurd h (by simp)
        · exact absurd h (by simp)
        · exact absurd h (by simp)
        · exact absurd h (by simp)
        have hco : pyDictGet (Json.obj cps) "content" .null =
            .ok ((Json.obj cps).getD "content" .null) := rfl
        rw [hco]
        obtain ⟨rt, hrt⟩ := LangGraphClientSDK.eventsToolCallPath_ok (Json.obj dps) cps h
        by_cases h4 : (((Json.obj cps).getD "content" .null).truthy &&
            ((Json.obj cps).getD "content" .null).isStr) = true
        · simp only [if_true, h4, eq_self_iff_true, ite_true]
          have hty : pyDictGet (Json.obj cps) "type" .null =
              .ok ((Json.obj cps).getD "type" .null) := rfl
          simp only [bind, Except.bind, hty]
          by_cases h5 : (Json.obj cps).getD "type" .null = .str "AIMessageChunk"
          · simp only [h5, if_pos rfl]
            exact ⟨_, rfl⟩
          · simp only [if_neg h5, hrt]
            exact ⟨_, rfl⟩
        · simp only [Bool.not_eq_true] at h4
          simp only [if_true, h4, Bool.false_eq_true, if_false, hrt]
          exact ⟨_, rfl⟩
      · simp only [if_neg h3]
        exact ⟨_, rfl⟩
/-- The `updates` arm of `LangGraphClientSDK.parse_chunk` cannot raise on `updatesWf` data. -/
theorem updatesLeg (ps : JsonPairs) (h : updatesWf (.obj ps) = true) :
    ∃ r, LangGraphClientSDK.parse_chunk ⟨"updates", .obj ps⟩ = .ok r := by
  unfold LangGraphClientSDK.parse_chunk
  simp only [Json.hasKey, Json.lookup, Json.isDict, reduceCtorEq, decide_False, decide_True,
    Bool.false_and, Bool.true_and, Bool.and_self, if_false, if_true, String.reduceEq,
    bind, Except.bind]
  match ps, h with
  | .nil, _ => exact ⟨_, rfl⟩
  | .cons k v rest, h =>
    simp only [updatesWf] at h
    match v, h with
    | .arr .nil, h => exact absurd h (by simp)
    | .arr (.cons h0 t), h =>
      simp only [Json.isList, if_true, pyGetIdx0, bind, Except.bind]
      by_cases hd : h0.isDict = true
      · simp only [hd, Bool.not_true, Bool.false_or] at h
        match h0, hd, h with
        | .obj hps, _, h =>
          simp only [Json.isDict, if_true]
          have hie : pyDictGet (Json.obj hps) "__interrupt__" (Json.mkArr []) =
              .ok ((Json.obj hps).getD "__interrupt__" (Json.mkArr [])) := rfl
          rw [hie]
          rcases hiv : (Json.obj hps).getD "__interrupt__" (Json.mkArr [])
              with _ | b | n | s | es | ips <;> rw [hiv] at h
          · exact absurd h (by simp [interruptListWf])
          · exact absurd h (by simp [interruptListWf])
          · exact absurd h (by simp [interruptListWf])
          · exact absurd h (by simp [interruptListWf])
          · match es, h with
            | .nil, _ =>
              simp only [pyLen, JsonList.toList, List.length_nil, gt_iff_lt,
                Nat.lt_irrefl, decide_False, Bool.false_eq_true, if_false]
              exact ⟨_, rfl⟩
            | .cons i0 it, h =>
              obtain ⟨m, hm⟩ := LangGraphClientSDK.interruptMsgOfList_ok i0 it h
              simp only [pyLen, JsonList.toList, List.length_cons, gt_iff_lt,
                Nat.succ_pos, decide_True, if_true, hm, bind, Except.bind]
              exact ⟨_, rfl⟩
          · exact absurd h (by simp [interruptListWf])
      · simp only [Bool.not_eq_true] at hd
        match h0, hd with
        | .null, _ => exact ⟨_, rfl⟩
        | .bool b, _ => exact ⟨_, rfl⟩
        | .int n, _ => exact ⟨_, rfl⟩
        | .str s, _ => exact ⟨_, rfl⟩
        | .arr es, _ => exact ⟨_, rfl⟩
        | .obj hps, hd => exact absurd hd (by simp [Json.isDict])
    | .obj vps, h =>
      simp only [Json.isList, Json.isDict, Bool.false_eq_true, if_false, if_true]
      exact ⟨_, rfl⟩
    | .null, h => exact ⟨_, rfl⟩
    | .bool b, h => exact ⟨_, rfl⟩
    | .int n, h => exact ⟨_, rfl⟩
    | .str s, h => exact ⟨_, rfl⟩
/-- The `values` arm of `LangGraphClientSDK.parse_chunk` cannot raise on `valuesWf` data. -/
theorem valuesLeg (ps : JsonPairs) (h : valuesWf (.obj ps) = true) :
    ∃ r, LangGraphClientSDK.parse_chunk ⟨"values", .obj ps⟩ = .ok r := by
  simp only [valuesWf, Json.isDict, Bool.true_and, Json.lookup] at h
  unfold LangGraphClientSDK.parse_chunk
  simp only [Json.hasKey, Json.lookup, Json.isDict, reduceCtorEq, decide_False, decide_True,
    Bool.false_and, Bool.true_and, Bool.and_self, if_false, if_true, String.reduceEq,
    Json.getD, bind, Except.bind]
  rcases hl : List.lookup "__interrupt__" ps.toList with _ | v
  · rw [hl] at h
    simp only [Json.getD, Json.lookup] at h
    simp only [hl, Option.isSome_none, Bool.false_eq_true, if_false, if_true, pyDictGet,
      Json.getD, Json.lookup, bind, Except.bind]
    rcases hml : List.lookup "messages" ps.toList with _ | mv
    · rw [hml] at h
      simp only [hml]
      exact ⟨_, rfl⟩
    · rw [hml] at h
      simp only [hml]
      by_cases htr : mv.truthy
      · simp only [messagesWf, htr, Bool.not_true, Bool.false_or, Bool.or_eq_true] at h
        rw [if_pos htr]
        match mv, htr, h with
        | .arr es, htr, _ =>
          match es, htr with
          | .cons a t, _ =>
            have hne : (JsonList.cons a t).toList ≠ [] := by
              simp [JsonList.toList]
            rcases hgl : (JsonList.cons a t).toList.getLast? with _ | e
            · exact absurd (List.getLast?_isSome.mpr hne) (by simp [hgl])
            · simp only [pyGetLast, hgl]
              exact ⟨_, rfl⟩
        | .str s, htr, _ =>
          have hne : s.data ≠ [] := by
            intro hd
            have : s = "" := by
              cases s with
              | mk d => simp at hd; simp [hd]
            rw [this] at htr
            simp [Json.truthy] at htr
          rcases hgl : s.data.getLast? with _ | c
          · exact absurd (List.getLast?_isSome.mpr hne) (by simp [hgl])
          · simp only [pyGetLast, hgl]
            exact ⟨_, rfl⟩
      · rw [if_neg htr]
        exact ⟨_, rfl⟩
  · rw [hl] at h
    simp only [hl, Option.isSome_some, if_true, if_pos rfl, Json.getD, Json.lookup]
    match v, h with
    | .arr .nil, h => exact ⟨none, rfl⟩
    | .arr (.cons h0 t), h =>
      simp only [pyLen, JsonList.toList, List.length_cons, gt_iff_lt, Nat.succ_pos,
        if_true, pyGetIdx0, bind, Except.bind]
      simp only [valuesInterruptWf, Bool.and_eq_true, Json.isDict] at h
      obtain ⟨hdict, hval⟩ := h
      match h0, hdict with
      | .obj hps, _ =>
        simp only [pyContains, bind, Except.bind]
        rcases hv : List.lookup "value" hps.toList with _ | vv
        · simp only [hv, Option.isSome_none, Bool.false_eq_true, if_false]
          exact ⟨_, rfl⟩
        · rw [Json.lookup, hv] at hval
          simp only [hv, Option.isSome_some, if_true, pyGetStrKey, Except.bind]
          match vv, hval with
          | .obj vvps, _ =>
            simp only [pyContains, bind, Except.bind]
            rcases hm : List.lookup "msg" vvps.toList with _ | mv <;>
              simp only [hm, Option.isSome_none, Option.isSome_some, Bool.false_eq_true,
                if_false, if_true, pyGetStrKey, bind, Except.bind] <;>
              exact ⟨_, rfl⟩

/-- C10 (amended): `LangGraphClientSDK.parse_chunk` returns a parsed variant or nothing,
without raising, on every chunk of well-formed shape (`chunk_wf`): any
event kind outside the five handled ones, any `metadata` chunk, and
`values`/`tasks`/`updates`/`events` chunks whose payloads carry the
fields their arm subscripts, with list-of-dict interrupt shapes, a
non-empty first node-output list, and a plain `values` chunk's `messages`
value falsy or a (list or string) value the debug log's `messages[-1]`
subscript accepts.  (The unrestricted claim is refuted by
`C10_parse_chunk_raises_counterexample`.) -/
theorem C10_parse_chunk_total_on_wf (c : StreamPart) (h : chunk_wf c = true) :
    ∃ r, LangGraphClientSDK.parse_chunk c = .ok r := by
  obtain ⟨ev, data⟩ := c
  unfold chunk_wf at h
  by_cases hval : ev = "values"
  · subst hval
    rw [if_pos rfl] at h
    match data, h with
    | .obj ps, h => exact valuesLeg ps h
    | .null, h => exact absurd h (by simp [valuesWf, Json.isDict])
    | .bool b, h => exact absurd h (by simp [valuesWf, Json.isDict])
    | .int n, h => exact absurd h (by simp [valuesWf, Json.isDict])
    | .str s, h => exact absurd h (by simp [valuesWf, Json.isDict])
    | .arr es, h => exact absurd h (by simp [valuesWf, Json.isDict])
  · rw [if_neg hval] at h
    by_cases htk : ev = "tasks"
    · subst htk
      rw [if_pos rfl] at h
      match data, h with
      | .obj ps, h => exact tasksLeg ps h
      | .null, h => exact absurd h (by simp [tasksWf])
      | .bool b, h => exact absurd h (by simp [tasksWf])
      | .int n, h => exact absurd h (by simp [tasksWf])
      | .str s, h => exact absurd h (by simp [tasksWf])
      | .arr es, h => exact absurd h (by simp [tasksWf])
    · rw [if_neg htk] at h
      by_cases hup : ev = "updates"
      · subst hup
        rw [if_pos rfl] at h
        match data, h with
        | .obj ps, h => exact updatesLeg ps h
        | .null, h => exact absurd h (by simp [updatesWf])
        | .bool b, h => exact absurd h (by simp [updatesWf])
        | .int n, h => exact absurd h (by simp [updatesWf])
        | .str s, h => exact absurd h (by simp [updatesWf])
        | .arr es, h => exact absurd h (by simp [updatesWf])
      · rw [if_neg hup] at h
        by_cases hevt : ev = "events"
        · subst hevt
          rw [if_pos rfl] at h
          match data, h with
          | .obj ps, h => exact eventsLeg ps h
          | .null, h => exact absurd h (by simp [eventsWf])
          | .bool b, h => exact absurd h (by simp [eventsWf])
          | .int n, h => exact absurd h (by simp [eventsWf])
          | .str s, h => exact absurd h (by simp [eventsWf])
          | .arr es, h => exact absurd h (by simp [eventsWf])
        · unfold LangGraphClientSDK.parse_chunk
          simp only [hval, htk, hup, hevt, decide_False, Bool.false_and, if_false,
            decide_eq_true_eq]
          by_cases hm : ev = "metadata"
          · subst hm
            simp only [decide_True, Bool.true_and]
            split
            · exact ⟨_, rfl⟩
            · exact ⟨_, rfl⟩
          · simp only [hm, decide_False, Bool.false_and, Bool.false_eq_true, if_false]
            exact ⟨_, rfl⟩

/-- C10 (counterexample): `LangGraphClientSDK.parse_chunk` is not total.  An `updates` chunk
whose (first) node output is an empty list raises `IndexError` at
`node_outputs[0]`; a `tasks` chunk whose data has `input` but no
`name` raises `KeyError` at `task_data['name']`; and a plain `values`
chunk whose truthy `messages` value is not a sequence raises at the debug
log's `pformat(messages[-1])` — `TypeError` on a number, `KeyError` on a
dict — contradicting totality "for every chunk regardless of the shape of
its payload". -/
theorem C10_parse_chunk_raises_counterexample :
    LangGraphClientSDK.parse_chunk ⟨"updates", Json.mkObj [("n", Json.mkArr [])]⟩ =
      .error (.indexError "list index out of range")
    ∧ LangGraphClientSDK.parse_chunk ⟨"tasks", Json.mkObj [("input", Json.mkObj [])]⟩ =
      .error (.keyError "name")
    ∧ LangGraphClientSDK.parse_chunk ⟨"values", Json.mkObj [("messages", Json.int 5)]⟩ =
      .error (.typeError "object is not subscriptable")
    ∧ LangGraphClientSDK.parse_chunk
        ⟨"values", Json.mkObj [("messages", Json.mkObj [("a", Json.int 1)])]⟩ =
      .error (.keyError "-1") := by
  exact ⟨rfl, rfl, rfl, rfl⟩

/-- Witness for `C10_parse_chunk_total_on_wf`: a concrete completed-node
`tasks` chunk with an interrupt, and a plain `values` chunk with a
non-empty message list, are well-formed and parse without raising. -/
theorem C10_parse_chunk_total_on_wf_witness :
    (chunk_wf ⟨"tasks", Json.mkObj
      [("id", .str "t1"), ("name", .str "analyze"), ("error", .null),
       ("result", Json.mkObj []),
       ("interrupts", Json.mkArr
         [Json.mkObj [("value", Json.mkObj [("msg", .str "M")])]])]⟩ = true
    ∧ ∃ r, LangGraphClientSDK.parse_chunk ⟨"tasks", Json.mkObj
      [("id", .str "t1"), ("name", .str "analyze"), ("error", .null),
       ("result", Json.mkObj []),
       ("interrupts", Json.mkArr
         [Json.mkObj [("value", Json.mkObj [("msg", .str "M")])]])]⟩ = .ok r)
    ∧ (chunk_wf ⟨"values", Json.mkObj
      [("messages", Json.mkArr [Json.mkObj [("content", .str "hi")]])]⟩ = true
    ∧ ∃ r, LangGraphClientSDK.parse_chunk ⟨"values", Json.mkObj
      [("messages", Json.mkArr [Json.mkObj [("content", .str "hi")]])]⟩ = .ok r) :=
  ⟨⟨by decide, C10_parse_chunk_total_on_wf _ (by decide)⟩,
   ⟨by decide, C10_parse_chunk_total_on_wf _ (by decide)⟩⟩

/-- A `broadcast` entry's top-level `type` is its event type. -/
theorem isDoneSend_mqBroadcast (ch et : String) (p : Json) :
    (mqBroadcast ch et p).isDoneSend = decide (et = "done") := by
  simp [mqBroadcast, OrcAction.isDoneSend, Json.getD, Json.lookup, Json.mkObj,
    JsonPairs.ofList, JsonPairs.toList, List.lookup, Json.str.injEq]

/-- A `last_run_id` write is not a queue entry. -/
theorem isDoneSend_dbTaskRunId (r : Json) :
    (OrcAction.dbTaskRunId r).isDoneSend = false := rfl

set_option maxRecDepth 4096 in
/-- No iteration of the chatbot chunk loop appends a `done` entry. -/
theorem chatbotStepPure_countDone (m : String) (st : ChatbotLoopState) (c : StreamPart)
    (pc : Option ParsedChunk) :
    ((chatbotStepPure m st c pc).2).countP OrcAction.isDoneSend = 0 := by
  rcases pc with _ | pc
  · rfl
  · rcases pc <;>
      simp [chatbotStepPure, ParsedChunk.event, ParsedChunk.is_interrupted,
        List.countP_append, List.countP_cons, isDoneSend_mqBroadcast,
        isDoneSend_dbTaskRunId] <;>
      split_ifs <;>
      simp [List.countP_append, List.countP_cons, isDoneSend_mqBroadcast,
        isDoneSend_dbTaskRunId]
/-- A successful loop iteration is the pure step on the parse result. -/
theorem chatbotStep_ok (m : String) (st : ChatbotLoopState) (c : StreamPart)
    (st' : ChatbotLoopState) (acts : List OrcAction)
    (h : chatbotStep m st c = .ok (st', acts)) :
    ∃ parsed, LangGraphClientSDK.parse_chunk c = .ok parsed ∧
      chatbotStepPure m st c parsed = (st', acts) := by
  unfold chatbotStep at h
  rcases hp : LangGraphClientSDK.parse_chunk c with e | parsed <;> rw [hp] at h
  · exact absurd h (by simp [Except.map])
  · refine ⟨parsed, rfl, ?_⟩
    simpa [Except.map] using h

/-- The chatbot chunk loop appends no `done` entry. -/
theorem runChatbotLoop_countDone (m : String) (st : ChatbotLoopState)
    (ss : List StreamPart) :
    ((runChatbotLoop m st ss).2.1).countP OrcAction.isDoneSend = 0 := by
  induction ss generalizing st with
  | nil => rfl
  | cons c rest ih =>
    unfold runChatbotLoop
    rcases hstep : chatbotStep m st c with e | ⟨st', acts⟩
    · rfl
    · obtain ⟨parsed, _, hpure⟩ := chatbotStep_ok m st c st' acts hstep
      have hacts : acts.countP OrcAction.isDoneSend = 0 := by
        have h0 := chatbotStepPure_countDone m st c parsed
        rw [hpure] at h0
        exact h0
      have hr := ih st'
      rcases hrest : runChatbotLoop m st' rest with ⟨st'', acts', err⟩
      rw [hrest] at hr
      simp [hrest, List.countP_append, hacts, hr]

/-- The local interrupt flag is never reset by a loop iteration. -/
theorem chatbotStepPure_interrupt_mono (m : String) (st : ChatbotLoopState)
    (c : StreamPart) (pc : Option ParsedChunk) (h : st.is_interrupted = true) :
    ((chatbotStepPure m st c pc).1).is_interrupted = true := by
  rcases pc with _ | pc
  · exact h
  · rcases pc <;>
      simp [chatbotStepPure, ParsedChunk.event, ParsedChunk.is_interrupted] <;>
      (try split_ifs) <;> simp [h]

/-- The local interrupt flag is never reset by the loop. -/
theorem runChatbotLoop_interrupt_mono (m : String) (st : ChatbotLoopState)
    (ss : List StreamPart) (h : st.is_interrupted = true) :
    ((runChatbotLoop m st ss).1).is_interrupted = true := by
  induction ss generalizing st with
  | nil => exact h
  | cons c rest ih =>
    unfold runChatbotLoop
    rcases hstep : chatbotStep m st c with e | ⟨st', acts⟩
    · exact h
    · obtain ⟨parsed, _, hpure⟩ := chatbotStep_ok m st c st' acts hstep
      have h1 : st'.is_interrupted = true := by
        have h0 := chatbotStepPure_interrupt_mono m st c parsed h
        rw [hpure] at h0
        exact h0
      have hr := ih st' h1
      rcases hrest : runChatbotLoop m st' rest with ⟨st'', acts', err⟩
      rw [hrest] at hr
      simpa [hrest] using hr

/-- A successful iteration is followed by the loop on the remaining
chunks: the loop never breaks out mid-stream. -/
theorem runChatbotLoop_cons (m : String) (st st' : ChatbotLoopState) (c : StreamPart)
    (acts : List OrcAction) (rest : List StreamPart)
    (h : chatbotStep m st c = .ok (st', acts)) :
    runChatbotLoop m st (c :: rest) =
      ((runChatbotLoop m st' rest).1,
       acts ++ (runChatbotLoop m st' rest).2.1,
       (runChatbotLoop m st' rest).2.2) := by
  rcases hrest : runChatbotLoop m st' rest with ⟨a, b, e⟩
  conv_lhs => rw [runChatbotLoop, h]
  simp only [hrest]
/-- C1: terminal resolution of a chatbot orchestrator run with no
exception.  If the local interrupt flag was set, message and task are both
persisted as HITL and no entry of type `done` is appended to the run's
channel; otherwise both are persisted as COMPLETED and exactly one
`{type: "done"}` entry is appended, after the terminal status writes. -/
theorem C1_terminal_resolution (inp : ChatbotRunInput)
    (h : (atask_for_create_chatbot_message inp).raised = none) :
    ((atask_for_create_chatbot_message inp).is_interrupted = true →
      ∃ pre, (atask_for_create_chatbot_message inp).trace =
        pre ++ [.dbMessageStatus ChatbotMessageStatus.HITL none,
                .dbTaskStatus ChatbotTaskStatus.HITL] ∧
        ((atask_for_create_chatbot_message inp).trace).countP OrcAction.isDoneSend = 0)
    ∧ ((atask_for_create_chatbot_message inp).is_interrupted = false →
      ∃ pre, (atask_for_create_chatbot_message inp).trace =
        pre ++ [.dbMessageStatus ChatbotMessageStatus.COMPLETED none,
                .dbTaskStatus ChatbotTaskStatus.COMPLETED,
                .mqSend inp.message_id (Json.mkObj [("type", .str "done")])] ∧
        pre.countP OrcAction.isDoneSend = 0) := by
  have hcount := runChatbotLoop_countDone inp.message_id .init inp.stream
  rcases hrun : runChatbotLoop inp.message_id .init inp.stream with ⟨st, acts, err⟩
  rw [hrun] at hcount
  simp only at hcount
  unfold atask_for_create_chatbot_message at h ⊢
  simp only [hrun] at h ⊢
  rcases err with _ | e
  · rcases hint : st.is_interrupted with _ | _
    · simp only [hint, Bool.false_eq_true, if_false]
      refine ⟨fun hc => absurd hc (by simp), fun _ => ?_⟩
      refine ⟨OrcAction.dbMessageThread
          (if inp.assistant_id = AssistantID.TASK_ASSISTANT then inp.task_thread_id
           else if inp.hitl_mode then inp.message_thread_id
           else inp.new_thread_id) :: acts, ?_, ?_⟩
      · simp
      · simp [List.countP_cons, hcount, OrcAction.isDoneSend]
    · simp only [hint, if_true]
      refine ⟨fun _ => ?_, fun hc => absurd hc (by simp)⟩
      refine ⟨OrcAction.dbMessageThread
          (if inp.assistant_id = AssistantID.TASK_ASSISTANT then inp.task_thread_id
           else if inp.hitl_mode then inp.message_thread_id
           else inp.new_thread_id) :: acts, ?_, ?_⟩
      · simp
      · simp [List.countP_append, List.countP_cons, hcount, OrcAction.isDoneSend]
  · simp at h
/-- The loop over a concatenation runs the suffix from the prefix's final
state, unless the prefix raised. -/
theorem runChatbotLoop_append (m : String) (st : ChatbotLoopState)
    (xs ys : List StreamPart) :
    runChatbotLoop m st (xs ++ ys) =
      (match runChatbotLoop m st xs with
      | (st1, a1, some e) => (st1, a1, some e)
      | (st1, a1, none) =>
        ((runChatbotLoop m st1 ys).1, a1 ++ (runChatbotLoop m st1 ys).2.1,
         (runChatbotLoop m st1 ys).2.2)) := by
  induction xs generalizing st with
  | nil =>
    simp only [List.nil_append, runChatbotLoop]
  | cons c rest ih =>
    rw [List.cons_append]
    rcases hstep : chatbotStep m st c with e | ⟨st', acts⟩
    · conv_lhs => rw [runChatbotLoop, hstep]
      conv_rhs => rw [runChatbotLoop, hstep]
    · conv_lhs => rw [runChatbotLoop, hstep]
      conv_rhs => rw [runChatbotLoop, hstep]
      simp only [ih st']
      rcases hrest : runChatbotLoop m st' rest with ⟨st1, a1, e1⟩
      simp only [hrest]
      rcases e1 with _ | e1
      · rcases hys : runChatbotLoop m st1 ys with ⟨st2, a2, e2⟩
        simp [hys, List.append_assoc]
      · simp

/-- An interrupted `tasks` chunk sets the interrupt flag and broadcasts
the `ai_message` HITL frame. -/
theorem chatbotStepPure_tasks_interrupt (m : String) (st : ChatbotLoopState)
    (c : StreamPart) (pc : ParsedChunk)
    (he : pc.event = "tasks") (hi : pc.is_interrupted = true) :
    ((chatbotStepPure m st c (some pc)).1).is_interrupted = true
    ∧ (mqBroadcast m "ai_message" (Json.mkObj
        [("type", .str "ai"),
         ("message", if pc.interrupt_msg.truthy then pc.interrupt_msg else .str ""),
         ("status", .str ChatbotMessageStatus.HITL),
         ("message_id", .str m)])) ∈ (chatbotStepPure m st c (some pc)).2 := by
  rcases pc with _ | _ | ⟨tid, nm, er, tr, ns, nc, ii, im⟩ | _ | _ <;>
    simp [ParsedChunk.event] at he
  simp only [ParsedChunk.is_interrupted] at hi
  subst hi
  simp [chatbotStepPure, ParsedChunk.event, ParsedChunk.is_interrupted,
    ParsedChunk.interrupt_msg]
/-- C2 (amended): only a parsed chunk of the `tasks` variant with
`is_interrupted` makes the orchestrator broadcast the `ai_message` event
`{type: "ai", message: interrupt_msg (or "" when falsy), status: HITL,
message_id}`, set the local interrupt flag, and continue consuming the
stream (the loop proceeds to the remaining chunks); a run whose stream
contains such a chunk and raises no exception resolves with the flag set.
Interrupted `values`/`updates` chunks are ignored
(`C2_interrupt_only_tasks_counterexample`). -/
theorem C2_tasks_interrupt_amended (c : StreamPart) (pc : ParsedChunk)
    (hp : LangGraphClientSDK.parse_chunk c = .ok (some pc))
    (he : pc.event = "tasks") (hi : pc.is_interrupted = true) :
    (∀ m st, ∃ st' acts, chatbotStep m st c = .ok (st', acts)
      ∧ st'.is_interrupted = true
      ∧ (mqBroadcast m "ai_message" (Json.mkObj
          [("type", .str "ai"),
           ("message", if pc.interrupt_msg.truthy then pc.interrupt_msg else .str ""),
           ("status", .str ChatbotMessageStatus.HITL),
           ("message_id", .str m)])) ∈ acts
      ∧ ∀ rest, runChatbotLoop m st (c :: rest) =
          ((runChatbotLoop m st' rest).1,
           acts ++ (runChatbotLoop m st' rest).2.1,
           (runChatbotLoop m st' rest).2.2))
    ∧ (∀ inp : ChatbotRunInput, ∀ pre post, inp.stream = pre ++ c :: post →
        (atask_for_create_chatbot_message inp).raised = none →
        (atask_for_create_chatbot_message inp).is_interrupted = true) := by
  have hstep : ∀ m st, chatbotStep m st c = .ok (chatbotStepPure m st c (some pc)) := by
    intro m st
    unfold chatbotStep
    rw [hp]
    rfl
  constructor
  · intro m st
    obtain ⟨hflag, hmem⟩ := chatbotStepPure_tasks_interrupt m st c pc he hi
    refine ⟨(chatbotStepPure m st c (some pc)).1, (chatbotStepPure m st c (some pc)).2,
      by rw [hstep], hflag, hmem, fun rest => ?_⟩
    exact runChatbotLoop_cons m st _ c _ rest (by rw [hstep])
  · intro inp pre post hstream hraised
    have happ := runChatbotLoop_append inp.message_id .init pre (c :: post)
    rcases hpre : runChatbotLoop inp.message_id .init pre with ⟨st1, a1, e1⟩
    rw [hpre] at happ
    rcases e1 with _ | e1
    · -- prefix consumed without error
      obtain ⟨hflag, _⟩ := chatbotStepPure_tasks_interrupt inp.message_id st1 c pc he hi
      have hcons := runChatbotLoop_cons inp.message_id st1 _ c _ post (by rw [hstep])
      simp only at happ
      rw [hcons] at happ
      have hmono := runChatbotLoop_interrupt_mono inp.message_id
        (chatbotStepPure inp.message_id st1 c (some pc)).1 post hflag
      rcases hpost : runChatbotLoop inp.message_id
          (chatbotStepPure inp.message_id st1 c (some pc)).1 post with ⟨st2, a2, e2⟩
      rw [hpost] at happ hmono
      simp only at happ hmono
      unfold atask_for_create_chatbot_message at hraised ⊢
      rw [hstream, happ] at hraised ⊢
      rcases e2 with _ | e2
      · simp only [hmono, if_true]
      · simp at hraised
    · -- prefix raised: the whole run raised, contradicting hraised
      simp only at happ
      unfold atask_for_create_chatbot_message at hraised
      rw [hstream, happ] at hraised
      simp at hraised

/-- Whether an action appends an `ai_message` entry to the channel. -/
def OrcAction.isAiMessageSend : OrcAction → Bool
  | .mqSend _ d => d.getD "type" .null = Json.str "ai_message"
  | _ => false

/-- An `updates` chunk whose first node output carries an
`__interrupt__` payload (the shape `parse_chunk` marks interrupted). -/
def updatesInterruptChunk : StreamPart :=
  ⟨"updates", Json.mkObj [("n", Json.mkArr [Json.mkObj
    [("__interrupt__", Json.mkArr [Json.mkObj
      [("value", Json.mkObj [("msg", Json.str "Please specify target language")])]])]])]⟩

/-- What `parse_chunk` yields on `updatesInterruptChunk`. -/
def updatesInterruptParsed : ParsedChunk :=
  .updates "n"
    (Json.mkObj [("__interrupt__", Json.mkArr [Json.mkObj
      [("value", Json.mkObj [("msg", Json.str "Please specify target language")])]])])
    true (.str "Please specify target language")

/-- A completed-node `tasks` chunk carrying an interrupt. -/
def tasksInterruptChunk : StreamPart :=
  ⟨"tasks", Json.mkObj
    [("id", .str "t1"), ("name", .str "analyze"), ("error", .null),
     ("result", Json.mkObj []),
     ("interrupts", Json.mkArr [Json.mkObj [("value", Json.mkObj [("msg", .str "M")])]])]⟩

/-- What `parse_chunk` yields on `tasksInterruptChunk`. -/
def tasksInterruptParsed : ParsedChunk :=
  .tasks (.str "t1") (.str "analyze") .null .null false true true (.str "M")

/-- A chatbot run input over a given stream, with no attachments. -/
def chatbotRunInputOn (ss : List StreamPart) : ChatbotRunInput :=
  { task_thread_id := "tt", message_id := "m1", message_thread_id := "mt",
    content := "안녕?", files := [], assistant_id := AssistantID.TASK_TRANSLATION,
    hitl_mode := false, new_thread_id := "nt", fetch := fun _ => none,
    stream := ss }

/-- C2 (counterexample): the claim fails for the `Values`/`Updates`
variants.  `updatesInterruptChunk` parses to an `updates` variant with
`is_interrupted = true`, yet a run over just that chunk never broadcasts
an `ai_message` event, ends with the local interrupt flag unset, and
resolves to COMPLETED with a `done` entry — the orchestrator's interrupt
check reads only `parsed_chunk["event"] == "tasks"`. -/
theorem C2_interrupt_only_tasks_counterexample :
    LangGraphClientSDK.parse_chunk updatesInterruptChunk = .ok (some updatesInterruptParsed)
    ∧ updatesInterruptParsed.is_interrupted = true
    ∧ (atask_for_create_chatbot_message (chatbotRunInputOn [updatesInterruptChunk])).is_interrupted = false
    ∧ ((atask_for_create_chatbot_message (chatbotRunInputOn [updatesInterruptChunk])).trace).countP
        OrcAction.isAiMessageSend = 0
    ∧ (atask_for_create_chatbot_message (chatbotRunInputOn [updatesInterruptChunk])).trace =
        [.dbMessageThread "nt",
         mqBroadcast "m1" "langgraph_stream_chunk"
           (Json.mkObj [("type", .str "updates"), ("data", updatesInterruptChunk.data)]),
         .dbMessageStatus ChatbotMessageStatus.COMPLETED none,
         .dbTaskStatus ChatbotTaskStatus.COMPLETED,
         .mqSend "m1" (Json.mkObj [("type", .str "done")])] := by
  refine ⟨rfl, by decide, by decide, by decide, by decide⟩

/-- Witness for `C2_tasks_interrupt_amended`: a run over the concrete
interrupted `tasks` chunk resolves with the interrupt flag set. -/
theorem C2_tasks_interrupt_amended_witness :
    LangGraphClientSDK.parse_chunk tasksInterruptChunk = .ok (some tasksInterruptParsed)
    ∧ (atask_for_create_chatbot_message (chatbotRunInputOn [tasksInterruptChunk])).is_interrupted = true :=
  ⟨rfl,
   (C2_tasks_interrupt_amended tasksInterruptChunk tasksInterruptParsed rfl
      (by decide) (by decide)).2 (chatbotRunInputOn [tasksInterruptChunk]) [] [] rfl
      (by decide)⟩

/-- Witness for `C1_terminal_resolution`: one interrupted and one plain
run at concrete inputs. -/
theorem C1_terminal_resolution_witness :
    ((atask_for_create_chatbot_message (chatbotRunInputOn [tasksInterruptChunk])).raised = none
      ∧ (atask_for_create_chatbot_message (chatbotRunInputOn [tasksInterruptChunk])).is_interrupted = true
      ∧ ∃ pre, (atask_for_create_chatbot_message (chatbotRunInputOn [tasksInterruptChunk])).trace =
          pre ++ [.dbMessageStatus ChatbotMessageStatus.HITL none,
                  .dbTaskStatus ChatbotTaskStatus.HITL]
          ∧ ((atask_for_create_chatbot_message (chatbotRunInputOn [tasksInterruptChunk])).trace).countP
              OrcAction.isDoneSend = 0)
    ∧ ((atask_for_create_chatbot_message (chatbotRunInputOn [])).raised = none
      ∧ (atask_for_create_chatbot_message (chatbotRunInputOn [])).is_interrupted = false
      ∧ ∃ pre, (atask_for_create_chatbot_message (chatbotRunInputOn [])).trace =
          pre ++ [.dbMessageStatus ChatbotMessageStatus.COMPLETED none,
                  .dbTaskStatus ChatbotTaskStatus.COMPLETED,
                  .mqSend "m1" (Json.mkObj [("type", .str "done")])]
          ∧ pre.countP OrcAction.isDoneSend = 0) :=
  ⟨⟨by decide, by decide,
    (C1_terminal_resolution (chatbotRunInputOn [tasksInterruptChunk]) (by decide)).1 (by decide)⟩,
   ⟨by decide, by decide,
    (C1_terminal_resolution (chatbotRunInputOn []) (by decide)).2 (by decide)⟩⟩

/-- The set of task statuses from which a run may start
(`chatbot.py` lines 276-283). -/
def allowedStartStatuses : List String :=
  [ChatbotTaskStatus.READY, ChatbotTaskStatus.HITL, ChatbotTaskStatus.COMPLETED,
   ChatbotTaskStatus.FAILED, ChatbotTaskStatus.CANCELLED, ChatbotTaskStatus.ABANDONED]

/-- C3: entry checks of `create_chatbot_message`.  Starting a run on an
`IN_PROGRESS` task is rejected with "already running an action"; a status
outside the allowed set (and not `IN_PROGRESS`, which the previous guard
already rejected) is rejected with "not in a valid state"; rejections
commit nothing, leaving the records unchanged (the `.error` outcome of
the model).  From any allowed status the entry step sets
`task.status = IN_PROGRESS` and `message.status = PROCESSING` and only
then schedules the background stream.  In HITL resume mode the referenced
message must be in `HITL` status, else the request is rejected. -/
theorem C3_entry_state_checks (inp : CreateMessageInput) (task : ChatbotTaskRec)
    (hu : inp.user_exists = true) (ht : inp.task = some task) :
    (task.status = ChatbotTaskStatus.IN_PROGRESS →
       create_chatbot_message inp =
         .error ⟨400, "Chatbot task is already running an action"⟩)
    ∧ (task.status ≠ ChatbotTaskStatus.IN_PROGRESS →
       task.status ∉ allowedStartStatuses →
       create_chatbot_message inp =
         .error ⟨400, "Chatbot task is not in a valid state"⟩)
    ∧ (task.status ∈ allowedStartStatuses → inp.hitl_mode = false →
       create_chatbot_message inp =
         .ok ⟨⟨ChatbotTaskStatus.IN_PROGRESS⟩, ⟨ChatbotMessageStatus.PROCESSING⟩, false, true⟩)
    ∧ (task.status ∈ allowedStartStatuses → inp.hitl_mode = true →
       ∀ mid msg, inp.hitl_message_id = some mid → inp.hitl_message = some msg →
       ((msg.status = ChatbotMessageStatus.HITL →
           create_chatbot_message inp =
             .ok ⟨⟨ChatbotTaskStatus.IN_PROGRESS⟩, ⟨ChatbotMessageStatus.PROCESSING⟩, true, true⟩)
        ∧ (msg.status ≠ ChatbotMessageStatus.HITL →
           create_chatbot_message inp =
             .error ⟨400, "Chatbot message is not in HITL status"⟩))) := by
  have hnotin : ∀ s, s ∈ allowedStartStatuses → s ≠ ChatbotTaskStatus.IN_PROGRESS := by
    intro s hs
    simp only [allowedStartStatuses, List.mem_cons, List.not_mem_nil, or_false] at hs
    rcases hs with h | h | h | h | h | h <;> subst h <;> decide
  refine ⟨?_, ?_, ?_, ?_⟩
  · intro hst
    unfold create_chatbot_message
    simp [hu, ht, hst]
  · intro hne hnin
    unfold create_chatbot_message
    simp only [allowedStartStatuses] at hnin
    simp [hu, ht, hne, hnin]
  · intro hmem hh
    unfold create_chatbot_message
    have hne := hnotin _ hmem
    simp only [allowedStartStatuses] at hmem
    simp [hu, ht, hne, hmem, hh]
  · intro hmem hh mid msg hmid hmsg
    unfold create_chatbot_message
    have hne := hnotin _ hmem
    simp only [allowedStartStatuses] at hmem
    constructor
    · intro hs
      simp [hu, ht, hne, hmem, hh, hmid, hmsg, hs]
    · intro hs
      simp [hu, ht, hne, hmem, hh, hmid, hmsg, hs]

/-- Witness for `C3_entry_state_checks` at concrete inputs: each guard
exercised. -/
theorem C3_entry_state_checks_witness :
    (create_chatbot_message ⟨true, some ⟨"in_progress"⟩, false, none, none⟩ =
       .error ⟨400, "Chatbot task is already running an action"⟩)
    ∧ (create_chatbot_message ⟨true, some ⟨"bogus"⟩, false, none, none⟩ =
       .error ⟨400, "Chatbot task is not in a valid state"⟩)
    ∧ (create_chatbot_message ⟨true, some ⟨"ready"⟩, false, none, none⟩ =
       .ok ⟨⟨"in_progress"⟩, ⟨"processing"⟩, false, true⟩)
    ∧ (create_chatbot_message ⟨true, some ⟨"hitl"⟩, true, some "M1", some ⟨"hitl"⟩⟩ =
       .ok ⟨⟨"in_progress"⟩, ⟨"processing"⟩, true, true⟩)
    ∧ (create_chatbot_message ⟨true, some ⟨"completed"⟩, true, some "M1", some ⟨"completed"⟩⟩ =
       .error ⟨400, "Chatbot message is not in HITL status"⟩) :=
  ⟨(C3_entry_state_checks ⟨true, some ⟨"in_progress"⟩, false, none, none⟩ ⟨"in_progress"⟩
      rfl rfl).1 rfl,
   (C3_entry_state_checks ⟨true, some ⟨"bogus"⟩, false, none, none⟩ ⟨"bogus"⟩
      rfl rfl).2.1 (by decide) (by decide),
   (C3_entry_state_checks ⟨true, some ⟨"ready"⟩, false, none, none⟩ ⟨"ready"⟩
      rfl rfl).2.2.1 (by decide) rfl,
   ((C3_entry_state_checks ⟨true, some ⟨"hitl"⟩, true, some "M1", some ⟨"hitl"⟩⟩ ⟨"hitl"⟩
      rfl rfl).2.2.2 (by decide) rfl "M1" ⟨"hitl"⟩ rfl rfl).1 rfl,
   ((C3_entry_state_checks ⟨true, some ⟨"completed"⟩, true, some "M1", some ⟨"completed"⟩⟩
      ⟨"completed"⟩ rfl rfl).2.2.2 (by decide) rfl "M1" ⟨"completed"⟩ rfl rfl).2 (by decide)⟩

/-- A translation run input over given lookup results and stream. -/
def translationRunInputOn (preset original : Option Json) (ss : List StreamPart) :
    TranslationRunInput :=
  { rsmq_channel_id := "ch1", file_id := "f1", file_preset_id := "p1",
    preset := preset, original := original, thread_id := "th1", stream := ss,
    addMarkers := id }

/-- A minimal file preset row selecting the `task_translation_a1` agent. -/
def samplePreset : Json := Json.mkObj [("ai_agent_id", .str "task_translation_a1")]

/-- A minimal original-text row. -/
def sampleOriginal : Json := Json.mkObj [("original_text", Json.mkObj
  [("segments", Json.mkArr [Json.mkObj [("sid", .int 1), ("text", .str "A.")]])])]

/-- C4 (counterexample): an exception inside a chatbot orchestrator run
(here the `IndexError` that `parse_chunk` raises on an empty node-output
list) persists message and task as FAILED but stores NO error string:
the failure `UPDATE`s write only the status column
(`stored_message = none`), contradicting "persisted as FAILED together
with a stored error string" for every run. -/
theorem C4_failed_without_error_string_counterexample :
    (atask_for_create_chatbot_message
        (chatbotRunInputOn [⟨"updates", Json.mkObj [("n", Json.mkArr [])]⟩])).raised =
      some (.indexError "list index out of range")
    ∧ (atask_for_create_chatbot_message
        (chatbotRunInputOn [⟨"updates", Json.mkObj [("n", Json.mkArr [])]⟩])).trace =
      [.dbMessageThread "nt",
       .dbMessageStatus ChatbotMessageStatus.FAILED none,
       .dbTaskStatus ChatbotTaskStatus.FAILED] := ⟨by decide, by decide⟩

/-- C4 (amended): an exception during a chatbot run persists message and
task as FAILED with no stored error string, while an exception during a
file-translation run persists the translation as `failed` together with a
stored message — the raw diagnostic `str(e)` for `ValueError` validation
failures (missing preset `"File preset not found: <id>"`, missing
original text `"Original text not found for file: <id>"`, unsupported
agent) and `"System error (<ErrorKind>). Check the server logs for
details."` for all other exceptions. -/
theorem C4_failure_handling_amended :
    (∀ inp e, (atask_for_create_chatbot_message inp).raised = some e →
      ∃ pre, (atask_for_create_chatbot_message inp).trace =
        pre ++ [.dbMessageStatus ChatbotMessageStatus.FAILED none,
                .dbTaskStatus ChatbotTaskStatus.FAILED])
    ∧ (∀ e, translationFailureUpdate e = .updateStatus none "failed"
        (some (if e.isValueError then e.toMessage
          else "System error (" ++ e.typeName ++ "). Check the server logs for details.")))
    ∧ (∀ inp e, (bg_atask_create_file_translation inp).raised = some e →
      ∃ pre, (bg_atask_create_file_translation inp).trace =
        pre ++ [translationFailureUpdate e])
    ∧ (∀ inp : TranslationRunInput, inp.preset = none →
      (bg_atask_create_file_translation inp).raised =
        some (.valueError ("File preset not found: " ++ inp.file_preset_id)))
    ∧ (∀ inp : TranslationRunInput, ∀ p, inp.preset = some p → inp.original = none →
      (bg_atask_create_file_translation inp).raised =
        some (.valueError ("Original text not found for file: " ++ inp.file_id))) := by
  refine ⟨?_, ?_, ?_, ?_, ?_⟩
  · intro inp e h
    unfold atask_for_create_chatbot_message at h ⊢
    rcases hrun : runChatbotLoop inp.message_id .init inp.stream with ⟨st, acts, err⟩
    rw [hrun] at h
    simp only at h ⊢
    rcases err with _ | e'
    · rcases hint : st.is_interrupted with _ | _ <;> simp [hint] at h
    · exact ⟨_, rfl⟩
  · intro e
    rcases e <;> rfl
  · intro inp e h
    unfold bg_atask_create_file_translation at h ⊢
    rcases hp : inp.preset with _ | preset
    · simp only [hp] at h ⊢
      simp only [Option.some.injEq] at h
      exact ⟨[], by rw [h]; rfl⟩
    · simp only [hp] at h ⊢
      rcases ho : inp.original with _ | original
      · simp only [ho] at h ⊢
        simp only [Option.some.injEq] at h
        exact ⟨[], by rw [h]; rfl⟩
      · simp only [ho] at h ⊢
        rcases hc : get_langgraph_chunk_collector
            (preset.getD "ai_agent_id" (.str "task_translation_a1")) with ec | col
        · simp only [hc] at h ⊢
          simp only [Option.some.injEq] at h
          refine ⟨[TrAction.updateStatus
            (some (Json.mkObj
              [("agent_id", preset.getD "ai_agent_id" (Json.str "task_translation_a1")),
               ("thread_id", Json.str inp.thread_id), ("last_run_id", Json.str ""),
               ("rsmq_channel_id", Json.str inp.rsmq_channel_id)]))
            "in_progress" none], ?_⟩
          rw [h]
          rfl
        · simp only [hc] at h ⊢
          rcases hloop : runTranslationLoop inp.rsmq_channel_id
              ⟨col, Json.mkObj
                [("agent_id", preset.getD "ai_agent_id" (.str "task_translation_a1")),
                 ("thread_id", .str inp.thread_id), ("last_run_id", .str ""),
                 ("rsmq_channel_id", .str inp.rsmq_channel_id)]⟩ inp.stream
              with ⟨st, acts, err⟩
          rw [hloop] at h
          simp only at h ⊢
          rcases err with _ | e'
          · simp at h
          · simp only [Option.some.injEq] at h
            subst h
            exact ⟨_, rfl⟩
  · intro inp h
    unfold bg_atask_create_file_translation
    rw [h]
  · intro inp p hp ho
    unfold bg_atask_create_file_translation
    rw [hp, ho]

/-- Witness for `C4_failure_handling_amended` at concrete failing runs. -/
theorem C4_failure_handling_amended_witness :
    (∃ pre, (atask_for_create_chatbot_message
        (chatbotRunInputOn [⟨"updates", Json.mkObj [("n", Json.mkArr [])]⟩])).trace =
      pre ++ [.dbMessageStatus ChatbotMessageStatus.FAILED none,
              .dbTaskStatus ChatbotTaskStatus.FAILED])
    ∧ translationFailureUpdate (.indexError "list index out of range") =
        .updateStatus none "failed"
          (some "System error (IndexError). Check the server logs for details.")
    ∧ (bg_atask_create_file_translation (translationRunInputOn none none [])).raised =
        some (.valueError "File preset not found: p1")
    ∧ (bg_atask_create_file_translation
        (translationRunInputOn (some samplePreset) none [])).raised =
        some (.valueError "Original text not found for file: f1")
    ∧ (∃ pre, (bg_atask_create_file_translation
        (translationRunInputOn (some samplePreset) (some sampleOriginal)
          [⟨"updates", Json.mkObj [("n", Json.mkArr [])]⟩])).trace =
      pre ++ [translationFailureUpdate (.indexError "list index out of range")]) :=
  ⟨C4_failure_handling_amended.1
      (chatbotRunInputOn [⟨"updates", Json.mkObj [("n", Json.mkArr [])]⟩])
      (.indexError "list index out of range") (by decide),
   (C4_failure_handling_amended.2.1 (.indexError "list index out of range")).trans (by decide),
   C4_failure_handling_amended.2.2.2.1 (translationRunInputOn none none []) rfl,
   C4_failure_handling_amended.2.2.2.2 (translationRunInputOn (some samplePreset) none [])
      samplePreset rfl rfl,
   C4_failure_handling_amended.2.2.1
      (translationRunInputOn (some samplePreset) (some sampleOriginal)
        [⟨"updates", Json.mkObj [("n", Json.mkArr [])]⟩])
      (.indexError "list index out of range") (by decide)⟩

/-- C7 (amended): For every entry `(entry_id, obj)` yielded to an SSE
subscription, the emitted frame is `sse_event payload name` where the event
name is `"system"` when `obj["type"] == "done"` and `obj["type"]` otherwise,
and the payload is the object `\x7bid: entry_id, type: "done"|"data",
data: obj, ts: the millisecond part of entry_id, channel: channel_id\x7d`;
`sse_event` serialises the payload as the compact JSON emitted as one
`data:` line per `str.splitlines()` line of the JSON text — a single
`data:` line unless a string in the payload contains one of the
separators U+0085/U+2028/U+2029, the only `splitlines` boundaries that
`json.dumps(ensure_ascii=False)` leaves un-escaped (the unrestricted
single-data-line reading is refuted by
`C7_single_data_line_counterexample`).  When `obj["type"] == "done"` the
frame is emitted and then the subscription closes, yielding no frame for
any later entry. -/
theorem C7_sse_framing (ch eid : String) (ps : JsonPairs) (rest : List (String × Json))
    (t : String) (ht : (Json.obj ps).lookup "type" = some (.str t)) (ts : Int)
    (hts : tsOfMsgId eid = .ok ts) :
    ((t = "done" →
      processEntries ch ((eid, .obj ps) :: rest) =
        .ok [sse_event (Json.mkObj
          [("id", .str eid), ("type", .str "done"), ("data", .obj ps),
           ("ts", .int ts), ("channel", .str ch)]) (some "system")])
    ∧ (t ≠ "done" →
      processEntries ch ((eid, .obj ps) :: rest) =
        (processEntries ch rest).map (fun frames =>
          sse_event (Json.mkObj
            [("id", .str eid), ("type", .str "data"), ("data", .obj ps),
             ("ts", .int ts), ("channel", .str ch)]) (some t) :: frames))) := by
  have hget : pyDictGet (Json.obj ps) "type" (.str "message") = .ok (.str t) := by
    simp [pyDictGet, Json.getD, ht]
  constructor
  · intro hd
    subst hd
    conv_lhs => rw [processEntries]
    simp only [hget, hts, bind, Except.bind, if_pos rfl]
    rfl
  · intro hd
    conv_lhs => rw [processEntries]
    simp only [hget, hts, bind, Except.bind]
    have hne : (Json.str t = Json.str "done") = False := by
      simp [Json.str.injEq, hd]
    simp only [hne, if_false, pyFStr]
    rcases hrest : processEntries ch rest with e | frames <;>
      (simp only [Except.map]; try rfl)

/-- C7 (counterexample to the original single-data-line framing): an entry
whose object carries a string containing U+2028 — which
`json.dumps(ensure_ascii=False)` leaves un-escaped and `str.splitlines()`
treats as a line boundary — is framed with TWO `data:` lines, so its
frame is not `event: <name>\ndata: <compact-json>\n\n`. -/
theorem C7_single_data_line_counterexample :
    processEntries "c" [("171-0", Json.mkObj [("type", Json.str "message"),
        ("t", Json.str "x\u2028y")])]
      = .ok ["event: message\ndata: \x7b\"id\":\"171-0\",\"type\":\"data\",\"data\":\x7b\"type\":\"message\",\"t\":\"x\ndata: y\"\x7d,\"ts\":171,\"channel\":\"c\"\x7d\n\n"]
    ∧ sse_event (Json.mkObj [("id", Json.str "171-0"), ("type", Json.str "data"),
        ("data", Json.mkObj [("type", Json.str "message"), ("t", Json.str "x\u2028y")]),
        ("ts", Json.int 171), ("channel", Json.str "c")]) (some "message")
      ≠ "event: message\ndata: "
          ++ Json.dumps (Json.mkObj [("id", Json.str "171-0"), ("type", Json.str "data"),
              ("data", Json.mkObj [("type", Json.str "message"), ("t", Json.str "x\u2028y")]),
              ("ts", Json.int 171), ("channel", Json.str "c")]) ++ "\n\n" :=
  ⟨rfl, by decide⟩

theorem C7_sse_framing_witness :
    (processEntries "c1" [("171-0", Json.mkObj [("type", Json.str "done")]),
                          ("172-0", Json.mkObj [("type", Json.str "message")])] =
      .ok [sse_event (Json.mkObj [("id", Json.str "171-0"), ("type", Json.str "done"),
            ("data", Json.mkObj [("type", Json.str "done")]), ("ts", Json.int 171),
            ("channel", Json.str "c1")]) (some "system")])
    ∧ (processEntries "c2" [("172-1", Json.mkObj [("type", Json.str "message")])] =
      (processEntries "c2" []).map (fun frames =>
        sse_event (Json.mkObj [("id", Json.str "172-1"), ("type", Json.str "data"),
          ("data", Json.mkObj [("type", Json.str "message")]), ("ts", Json.int 172),
          ("channel", Json.str "c2")]) (some "message") :: frames)) :=
  ⟨(C7_sse_framing "c1" "171-0" (JsonPairs.ofList [("type", Json.str "done")])
      [("172-0", Json.mkObj [("type", Json.str "done")])] "done" rfl 171 rfl).1 rfl,
   (C7_sse_framing "c2" "172-1" (JsonPairs.ofList [("type", Json.str "message")])
      [] "message" rfl 172 rfl).2 (by decide)⟩

/-- `pending_messages` read iterations never touch the group state: no ack,
no last-delivered advance. -/
theorem pendingStep_group (count : Nat) (st : MqState) (op : MqOp) :
    (pendingStep count st op).1.group = st.group := by
  cases op <;> rfl

/-- An entry yielded by `XREADGROUP ... 0` is on the consumer's pending list. -/
theorem readPending_mem (g : RGroup) (s : RStream) (count : Nat)
    (e : Nat × Json) (he : e ∈ g.readPending s count) : e.1 ∈ g.pel := by
  have h1 := List.mem_of_mem_take he
  have h2 := (List.mem_filter.mp h1).2
  simpa using h2

/-- Any entry a `pending_messages` step yields is on the pending list of the
state the step ran from. -/
theorem pendingStep_out (count : Nat) (st : MqState) (op : MqOp)
    (e : Nat × Json) (he : e ∈ (pendingStep count st op).2) : e.1 ∈ st.group.pel := by
  cases op with
  | send d => simp [pendingStep] at he
  | readIter => exact readPending_mem _ _ _ _ he

/-- C8, refuting the claim: a `method=p` subscription never delivers entries
appended after it starts.  `consume_with_disconnect_check` with
`stream_method="pending_messages"` issues `XREADGROUP ... STREAMS <s> 0` on
every iteration and never acks, so over ANY interleaving of producer sends
and read iterations the group state is unchanged and every delivered entry
id was already on the consumer's pending list when the subscription started;
since every pending id is below the stream's next id and `XADD` assigns ids
from the next id upward, no entry appended after the start is ever
delivered — the claimed "then delivers new entries appended to the channel
afterwards" never happens. -/
theorem C8_pending_mode_never_delivers_new (count : Nat) (st0 : MqState) (ops : List MqOp)
    (hfresh : ∀ i ∈ st0.group.pel, i < st0.stream.nextId) :
    (runPending count st0 ops).1.group = st0.group
    ∧ ∀ e ∈ (runPending count st0 ops).2, e.1 ∈ st0.group.pel ∧ e.1 < st0.stream.nextId := by
  suffices h : ∀ ops st, st.group = st0.group →
      (runPending count st ops).1.group = st0.group
      ∧ ∀ e ∈ (runPending count st ops).2, e.1 ∈ st0.group.pel by
    obtain ⟨hg, hm⟩ := h ops st0 rfl
    exact ⟨hg, fun e he => ⟨hm e he, hfresh e.1 (hm e he)⟩⟩
  intro ops
  induction ops with
  | nil => intro st hst; exact ⟨hst, by simp [runPending]⟩
  | cons op rest ih =>
    intro st hst
    have hstep : (pendingStep count st op).1.group = st0.group := by
      rw [pendingStep_group]; exact hst
    obtain ⟨hg, hm⟩ := ih (pendingStep count st op).1 hstep
    constructor
    · rw [runPending]
      simpa using hg
    · intro e he
      rw [runPending] at he
      simp only [List.mem_append] at he
      rcases he with he | he
      · have := pendingStep_out count st op e (by simpa using he)
        rw [hst] at this; exact this
      · exact hm e (by simpa using he)

theorem C8_pending_mode_never_delivers_new_witness :
    ((runPending 10 (consumeStart [Json.null])
        [MqOp.send (Json.str "x"), MqOp.readIter]).1.group
      = (consumeStart [Json.null]).group)
    ∧ ∀ e ∈ (runPending 10 (consumeStart [Json.null])
        [MqOp.send (Json.str "x"), MqOp.readIter]).2,
        e.1 ∈ (consumeStart [Json.null]).group.pel
        ∧ e.1 < (consumeStart [Json.null]).stream.nextId :=
  C8_pending_mode_never_delivers_new 10 (consumeStart [Json.null])
    [MqOp.send (Json.str "x"), MqOp.readIter] (by decide)

/-! ## C5: the fresh-group `stream_from_beginning` consume invariant -/

/-- The initial accumulator is a lower bound of a `foldl max` over entry ids. -/
theorem le_foldlMax (l : List (Nat × Json)) (b : Nat) :
    b ≤ l.foldl (fun m e => max m e.1) b := by
  induction l generalizing b with
  | nil => simp
  | cons a t ih => exact le_trans (le_max_left b a.1) (ih (max b a.1))

/-- Every entry id is bounded by the `foldl max` over the list. -/
theorem mem_le_foldlMax (l : List (Nat × Json)) (b : Nat) (e : Nat × Json)
    (he : e ∈ l) : e.1 ≤ l.foldl (fun m v => max m v.1) b := by
  induction l generalizing b with
  | nil => cases he
  | cons a t ih =>
    rcases List.mem_cons.mp he with h | h
    · subst h
      exact le_trans (le_max_right b e.1) (le_foldlMax t (max b e.1))
    · exact ih (max b a.1) h

/-- A `foldl max` over entry ids is the initial accumulator or one of the ids. -/
theorem foldlMax_eq_or (l : List (Nat × Json)) (b : Nat) :
    l.foldl (fun m v => max m v.1) b = b
    ∨ ∃ e ∈ l, l.foldl (fun m v => max m v.1) b = e.1 := by
  induction l generalizing b with
  | nil => exact .inl rfl
  | cons a t ih =>
    rcases ih (max b a.1) with h | ⟨e, he, h⟩
    · rcases le_total b a.1 with hb | hb
      · exact .inr ⟨a, List.mem_cons_self _ _, by simpa [max_eq_right hb] using h⟩
      · exact .inl (by simpa [max_eq_left hb] using h)
    · exact .inr ⟨e, List.mem_cons_of_mem _ he, h⟩

/-- Acking every entry just read empties the pending list (`auto_ack=True`). -/
theorem xackFold_pel (l : List (Nat × Json)) (g : RGroup)
    (h : g.pel = l.map Prod.fst) :
    l.foldl (fun g e => g.xack e.1) g = ⟨g.lastDelivered, []⟩ := by
  induction l generalizing g with
  | nil => cases g; simp at h; simp [h]
  | cons a t ih =>
    have hx : g.xack a.1 = ⟨g.lastDelivered, t.map Prod.fst⟩ := by
      cases g with
      | mk ld pel =>
        simp only [RGroup.xack]
        simp only at h
        rw [h]
        simp [List.erase_cons_head]
    simp only [List.foldl_cons, hx]
    exact ih _ rfl

/-- A well-formed stream above a low-water id: every entry id lies strictly
between `lo` and the next id, and ids are strictly increasing. -/
def StreamOk (lo : Nat) (s : RStream) : Prop :=
  (∀ e ∈ s.entries, lo < e.1 ∧ e.1 < s.nextId)
  ∧ s.entries.Pairwise (fun a b => a.1 < b.1)
  ∧ lo < s.nextId

/-- `XADD` preserves stream well-formedness. -/
theorem StreamOk.xadd {lo : Nat} {s : RStream} (h : StreamOk lo s) (d : Json) :
    StreamOk lo (s.xadd d).1 := by
  obtain ⟨hm, hp, hn⟩ := h
  simp only [RStream.xadd]
  refine ⟨?_, ?_, Nat.lt_succ_of_lt hn⟩
  · intro e he
    rcases List.mem_append.mp he with he | he
    · exact ⟨(hm e he).1, Nat.lt_succ_of_lt (hm e he).2⟩
    · simp at he; subst he; exact ⟨hn, Nat.lt_succ_self _⟩
  · rw [List.pairwise_append]
    refine ⟨hp, by simp, ?_⟩
    intro a ha b hb
    simp at hb; subst hb
    exact (hm a ha).2

/-- A sequence of `XADD`s preserves stream well-formedness. -/
theorem xaddFold_ok (pre : List Json) (s : RStream) (lo : Nat) (h : StreamOk lo s) :
    StreamOk lo (pre.foldl (fun s d => (RStream.xadd s d).1) s) := by
  induction pre generalizing s with
  | nil => exact h
  | cons d t ih => exact ih _ (h.xadd d)

/-- Each `XADD` appends exactly one entry. -/
theorem xaddFold_length (pre : List Json) (s : RStream) :
    (pre.foldl (fun s d => (RStream.xadd s d).1) s).entries.length
      = s.entries.length + pre.length := by
  induction pre generalizing s with
  | nil => simp
  | cons d t ih =>
    rw [List.foldl_cons, ih]
    simp [RStream.xadd]
    omega

/-- The `consume` loop invariant: the pending list is empty (auto-ack), the
delivered entries are exactly the entries up to the group's last-delivered
id — an initial segment of the append-ordered stream — and every entry past
that segment is above the last-delivered id. -/
structure ConsInv (st : MqState) (delivered : List (Nat × Json)) : Prop where
  pel : st.group.pel = []
  deliv : delivered = st.stream.entries.take delivered.length
  low : ∀ e ∈ st.stream.entries.take delivered.length, e.1 ≤ st.group.lastDelivered
  high : ∀ e ∈ st.stream.entries.drop delivered.length, st.group.lastDelivered < e.1
  ld_lt : st.group.lastDelivered < st.stream.nextId
  ids_lt : ∀ e ∈ st.stream.entries, e.1 < st.stream.nextId
  sorted : st.stream.entries.Pairwise (fun a b => a.1 < b.1)
  dlen : delivered.length ≤ st.stream.entries.length

/-- A fresh `stream_from_beginning` group satisfies the invariant with
nothing delivered, whatever was already in the stream. -/
theorem consumeStart_inv (pre : List Json) : ConsInv (consumeStart pre) [] := by
  have hok : StreamOk 0 (pre.foldl (fun s d => (RStream.xadd s d).1) RStream.empty) :=
    xaddFold_ok pre RStream.empty 0 ⟨by simp [RStream.empty], by simp [RStream.empty],
      by simp [RStream.empty]⟩
  obtain ⟨hm, hp, hn⟩ := hok
  refine ⟨rfl, rfl, ?_, ?_, ?_, ?_, ?_, ?_⟩
  · intro e he; simp [consumeStart] at he
  · intro e he
    exact (hm e (by simpa [consumeStart] using he)).1
  · exact hn
  · intro e he
    exact (hm e (by simpa [consumeStart] using he)).2
  · exact hp
  · simp

/-- Under the invariant, the entries `XREADGROUP ... >` sees are exactly the
not-yet-delivered suffix. -/
theorem filterGt_eq_drop (st : MqState) (delivered : List (Nat × Json))
    (h : ConsInv st delivered) :
    st.stream.entries.filter (fun e => st.group.lastDelivered < e.1)
      = st.stream.entries.drop delivered.length := by
  conv_lhs => rw [← List.take_append_drop delivered.length st.stream.entries]
  rw [List.filter_append]
  have h1 : (st.stream.entries.take delivered.length).filter
      (fun e => st.group.lastDelivered < e.1) = [] := by
    rw [List.filter_eq_nil_iff]
    intro e he
    simp only [decide_eq_true_eq, Nat.not_lt]
    exact h.low e he
  have h2 : (st.stream.entries.drop delivered.length).filter
      (fun e => st.group.lastDelivered < e.1) = st.stream.entries.drop delivered.length := by
    rw [List.filter_eq_self]
    intro e he
    simp only [decide_eq_true_eq]
    exact h.high e he
  rw [h1, h2, List.nil_append]

/-- A producer `send` yields nothing and preserves the consume invariant. -/
theorem consumeSend_step (count : Nat) (st : MqState) (delivered : List (Nat × Json))
    (d : Json) (h : ConsInv st delivered) :
    ConsInv (consumeStep count st (.send d)).1 delivered
    ∧ (consumeStep count st (.send d)).2 = [] := by
  obtain ⟨hpel, hdel, hlow, hhigh, hld, hids, hsort, hdlen⟩ := h
  refine ⟨⟨hpel, ?_, ?_, ?_, ?_, ?_, ?_, ?_⟩, rfl⟩
  · simp only [consumeStep, RStream.xadd]
    rw [List.take_append_of_le_length hdlen]
    exact hdel
  · simp only [consumeStep, RStream.xadd]
    rw [List.take_append_of_le_length hdlen]
    exact hlow
  · simp only [consumeStep, RStream.xadd]
    rw [List.drop_append_of_le_length hdlen]
    intro e he
    rcases List.mem_append.mp he with he | he
    · exact hhigh e he
    · simp at he; subst he; exact hld
  · exact Nat.lt_succ_of_lt hld
  · simp only [consumeStep, RStream.xadd]
    intro e he
    rcases List.mem_append.mp he with he | he
    · exact Nat.lt_succ_of_lt (hids e he)
    · simp at he; subst he; exact Nat.lt_succ_self _
  · simp only [consumeStep, RStream.xadd]
    rw [List.pairwise_append]
    refine ⟨hsort, by simp, ?_⟩
    intro a ha b hb
    simp at hb; subst hb
    exact hids a ha
  · simp only [consumeStep, RStream.xadd]
    simp only [List.length_append, List.length_cons, List.length_nil]
    omega

/-- A read iteration leaves the stream alone, extends the delivered list to
the next initial segment of the stream, and preserves the invariant. -/
theorem consumeRead_step (count : Nat) (st : MqState) (delivered : List (Nat × Json))
    (h : ConsInv st delivered) :
    (consumeStep count st .readIter).1.stream = st.stream
    ∧ delivered ++ (consumeStep count st .readIter).2
        = st.stream.entries.take (delivered.length + count)
    ∧ ConsInv (consumeStep count st .readIter).1
        (delivered ++ (consumeStep count st .readIter).2) := by
  have hfil := filterGt_eq_drop st delivered h
  obtain ⟨hpel, hdel, hlow, hhigh, hld, hids, hsort, hdlen⟩ := h
  have hrn : st.group.readNew st.stream count
      = (⟨((st.stream.entries.drop delivered.length).take count).foldl
            (fun mx v => max mx v.1) st.group.lastDelivered,
          ((st.stream.entries.drop delivered.length).take count).map Prod.fst⟩,
         (st.stream.entries.drop delivered.length).take count) := by
    simp only [RGroup.readNew, hfil, hpel, List.nil_append]
  have hcs : consumeStep count st .readIter
      = ({ st with group :=
            ⟨((st.stream.entries.drop delivered.length).take count).foldl
                (fun mx v => max mx v.1) st.group.lastDelivered, []⟩ },
         (st.stream.entries.drop delivered.length).take count) := by
    simp only [consumeStep, hrn]
    rw [xackFold_pel _ _ rfl]
  rw [hcs]
  set avail := (st.stream.entries.drop delivered.length).take count with havail
  set ld' := avail.foldl (fun mx v => max mx v.1) st.group.lastDelivered with hld'
  have htake : delivered ++ avail = st.stream.entries.take (delivered.length + count) := by
    rw [List.take_add]
    exact congrArg (· ++ avail) hdel
  refine ⟨rfl, htake, ?_⟩
  have hm' : (delivered ++ avail).length = min (delivered.length + count)
      st.stream.entries.length := by
    rw [htake, List.length_take]
  have hdeliv' : delivered ++ avail
      = st.stream.entries.take (delivered ++ avail).length := by
    rw [htake, List.length_take]
    rw [List.take_eq_take]
    simp [min_assoc]
  have hsplit : avail ++ st.stream.entries.drop (delivered ++ avail).length
      = st.stream.entries.drop delivered.length := by
    have h1 : st.stream.entries.take (delivered ++ avail).length
          ++ st.stream.entries.drop (delivered ++ avail).length
        = st.stream.entries.take delivered.length
          ++ (avail ++ st.stream.entries.drop (delivered ++ avail).length) := by
      rw [← hdeliv', ← hdel, List.append_assoc]
    have h2 : st.stream.entries.take delivered.length
          ++ (avail ++ st.stream.entries.drop (delivered ++ avail).length)
        = st.stream.entries.take delivered.length
          ++ st.stream.entries.drop delivered.length := by
      rw [← h1, List.take_append_drop, List.take_append_drop]
    exact List.append_cancel_left h2
  have hdropsub : ∀ e ∈ st.stream.entries.drop (delivered ++ avail).length,
      e ∈ st.stream.entries.drop delivered.length := by
    intro e he
    rw [← hsplit]
    exact List.mem_append_right _ he
  have hpair : ∀ a ∈ avail, ∀ b ∈ st.stream.entries.drop (delivered ++ avail).length,
      a.1 < b.1 := by
    have hs : (st.stream.entries.drop delivered.length).Pairwise
        (fun a b => a.1 < b.1) := hsort.sublist (List.drop_sublist _ _)
    rw [← hsplit] at hs
    exact fun a ha b hb => (List.pairwise_append.mp hs).2.2 a ha b hb
  refine ⟨rfl, hdeliv', ?_, ?_, ?_, hids, hsort, ?_⟩
  · intro e he
    rw [← hdeliv'] at he
    rcases List.mem_append.mp he with he | he
    · rw [← hdel] at hlow
      exact le_trans (hlow e (hdel ▸ he)) (le_foldlMax avail st.group.lastDelivered)
    · exact mem_le_foldlMax avail st.group.lastDelivered e he
  · intro e he
    rcases foldlMax_eq_or avail st.group.lastDelivered with hq | ⟨a, ha, hq⟩
    · rw [hld', hq]
      exact hhigh e (hdropsub e he)
    · rw [hld', hq]
      exact hpair a ha e he
  · rcases foldlMax_eq_or avail st.group.lastDelivered with hq | ⟨a, ha, hq⟩
    · rw [hld', hq]; exact hld
    · rw [hld', hq]
      exact hids a (List.mem_of_mem_drop (List.mem_of_mem_take ha))
  · rw [hm']
    exact min_le_right _ _

/-- Unfold one loop step. -/
theorem runConsume_cons (count : Nat) (st : MqState) (op : MqOp) (rest : List MqOp) :
    runConsume count st (op :: rest)
      = ((runConsume count (consumeStep count st op).1 rest).1,
         (consumeStep count st op).2
           ++ (runConsume count (consumeStep count st op).1 rest).2) := rfl

/-- Split a consume run over concatenated operation sequences. -/
theorem runConsume_append (count : Nat) (l₁ l₂ : List MqOp) :
    ∀ st : MqState, runConsume count st (l₁ ++ l₂)
      = ((runConsume count (runConsume count st l₁).1 l₂).1,
         (runConsume count st l₁).2
           ++ (runConsume count (runConsume count st l₁).1 l₂).2) := by
  induction l₁ with
  | nil => intro st; simp [runConsume]
  | cons op rest ih =>
    intro st
    rw [List.cons_append, runConsume_cons, ih, runConsume_cons]
    simp [List.append_assoc]

/-- The consume invariant holds along any interleaving of producer sends
and read iterations. -/
theorem runConsume_inv (count : Nat) (ops : List MqOp) :
    ∀ st delivered, ConsInv st delivered →
      ConsInv (runConsume count st ops).1 (delivered ++ (runConsume count st ops).2) := by
  induction ops with
  | nil => intro st d h; simpa [runConsume] using h
  | cons op rest ih =>
    intro st d h
    rw [runConsume_cons]
    cases op with
    | send v =>
      have hs := consumeSend_step count st d v h
      have hi := ih _ _ hs.1
      simpa [hs.2] using hi
    | readIter =>
      have hr := consumeRead_step count st d h
      have hi := ih _ _ hr.2.2
      simpa [List.append_assoc] using hi

/-- A run appends exactly one entry per `send`. -/
theorem runConsume_entries_length (count : Nat) (ops : List MqOp) :
    ∀ st : MqState, (runConsume count st ops).1.stream.entries.length
      = st.stream.entries.length + sendCount ops := by
  induction ops with
  | nil => intro st; simp [runConsume, sendCount]
  | cons op rest ih =>
    intro st
    rw [runConsume_cons]
    cases op with
    | send v =>
      simp only [ih]
      simp [consumeStep, RStream.xadd, sendCount, List.countP_cons]
      omega
    | readIter =>
      simp only [ih]
      have hst : (consumeStep count st MqOp.readIter).1.stream = st.stream := rfl
      simp [sendCount, List.countP_cons, hst]

/-- Enough trailing read iterations drain the whole stream: with positive
`count`, after `k ≥` (undelivered entries) reads the delivered list is the
full entry list, and the stream itself is untouched. -/
theorem trailing_reads (count : Nat) (hc : 1 ≤ count) (k : Nat) :
    ∀ st delivered, ConsInv st delivered →
      st.stream.entries.length ≤ delivered.length + k →
      (runConsume count st (List.replicate k .readIter)).1.stream = st.stream
      ∧ delivered ++ (runConsume count st (List.replicate k .readIter)).2
          = st.stream.entries := by
  induction k with
  | zero =>
    intro st d h hlen
    refine ⟨rfl, ?_⟩
    show d ++ [] = st.stream.entries
    rw [List.append_nil, h.deliv]
    exact List.take_of_length_le (by omega)
  | succ k ih =>
    intro st d h hlen
    rw [List.replicate_succ, runConsume_cons]
    obtain ⟨hstream, htake, hinv⟩ := consumeRead_step count st d h
    have hm' : (d ++ (consumeStep count st .readIter).2).length
        = min (d.length + count) st.stream.entries.length := by
      rw [htake, List.length_take]
    obtain ⟨hs2, he2⟩ := ih _ _ hinv (by rw [hstream, hm']; omega)
    refine ⟨by rw [hs2, hstream], ?_⟩
    rw [← List.append_assoc, he2, hstream]

/-- C5: starting from a fresh (previously non-existent) consumer group in
`stream_from_beginning` mode, a `consume` loop delivers every entry appended
with `send` exactly once and in append order: over any interleaving `a` of
producer sends and read iterations followed by enough further read
iterations (`k ≥` total entries appended, with a positive `COUNT`), the
concatenated yield of the loop equals the stream's full entry list — each
appended entry appears exactly once, and before every entry appended later
(the yielded ids are strictly increasing). -/
theorem C5_fresh_group_consume_delivers_in_order (count k : Nat) (pre : List Json)
    (a : List MqOp) (hc : 1 ≤ count) (hk : pre.length + sendCount a ≤ k) :
    (runConsume count (consumeStart pre) (a ++ List.replicate k MqOp.readIter)).2
      = (runConsume count (consumeStart pre)
          (a ++ List.replicate k MqOp.readIter)).1.stream.entries
    ∧ (runConsume count (consumeStart pre) (a ++ List.replicate k MqOp.readIter)).2.Pairwise
        (fun e f => e.1 < f.1) := by
  have happ := runConsume_append count a (List.replicate k .readIter) (consumeStart pre)
  have hinv1 := runConsume_inv count a (consumeStart pre) [] (consumeStart_inv pre)
  rw [List.nil_append] at hinv1
  have hlen0 : (consumeStart pre).stream.entries.length = pre.length := by
    have hx := xaddFold_length pre RStream.empty
    simpa [consumeStart, RStream.empty] using hx
  have hlen1 : (runConsume count (consumeStart pre) a).1.stream.entries.length
      = pre.length + sendCount a := by
    rw [runConsume_entries_length, hlen0]
  have htr := trailing_reads count hc k (runConsume count (consumeStart pre) a).1
    (runConsume count (consumeStart pre) a).2 hinv1 (by rw [hlen1]; omega)
  constructor
  · rw [happ]
    show (runConsume count (consumeStart pre) a).2
        ++ (runConsume count (runConsume count (consumeStart pre) a).1
              (List.replicate k .readIter)).2
      = (runConsume count (runConsume count (consumeStart pre) a).1
          (List.replicate k .readIter)).1.stream.entries
    rw [htr.1]
    exact htr.2
  · rw [happ]
    show ((runConsume count (consumeStart pre) a).2
        ++ (runConsume count (runConsume count (consumeStart pre) a).1
              (List.replicate k .readIter)).2).Pairwise (fun e f => e.1 < f.1)
    rw [htr.2]
    exact hinv1.sorted

theorem C5_fresh_group_consume_delivers_in_order_witness :
    (1 ≤ 1 ∧ ([Json.str "a"] : List Json).length + sendCount [MqOp.send (Json.str "b")] ≤ 2)
    ∧ ((runConsume 1 (consumeStart [Json.str "a"])
          ([MqOp.send (Json.str "b")] ++ List.replicate 2 MqOp.readIter)).2
        = (runConsume 1 (consumeStart [Json.str "a"])
            ([MqOp.send (Json.str "b")] ++ List.replicate 2 MqOp.readIter)).1.stream.entries
      ∧ (runConsume 1 (consumeStart [Json.str "a"])
          ([MqOp.send (Json.str "b")] ++ List.replicate 2 MqOp.readIter)).2.Pairwise
            (fun e f => e.1 < f.1)) :=
  ⟨⟨by decide, by decide⟩,
   C5_fresh_group_consume_delivers_in_order 1 2 [Json.str "a"] [MqOp.send (Json.str "b")]
     (by decide) (by decide)⟩
